import Mathlib

/-! The galaxy autocorrelation driver of astro-stomp.

A shallow embedding of `main` in
`src/experimental/dls_magnification/stomp_galaxy_autocorrelation.cc`.

* C++ `double` values are modelled by exact rationals; rounding is outside the model.
* `uint32_t` and `uint16_t` values are naturals reduced modulo `2^32` and `2^16`.
* The `int32` command-line flags are integers.
* The STOMP library (`stomp.h`) is not part of the sources: the loaded map is a
  parameter, and every call on the correlation object is recorded as an event.
* The galaxy file exists and holds decimal numerals only: it is the sequence of its
  whitespace-separated numerals together with a flag telling whether whitespace (for
  instance a final newline) follows the last one. A numeral either converts to a
  `double` or lies beyond the range of `double` (such as `1e999`), in which case its
  extraction fails.
* A `FileContent`, and with it a `World`, is a file all of whose numerals convert. It is
  read as the `TextFile` of these numerals, and a `World` as the `TextWorld` of these
  files; `readGalaxies` and `main` are defined on every `TextFile` and `TextWorld`.
* Calls into the library return to the driver.
-/

namespace StompGalaxyAutocorrelation

/-- The two values of `Stomp::AngularCoordinate::Sphere` the driver uses (lines 82-84). -/
inductive Sphere where
  | Survey
  | Equatorial
deriving DecidableEq, Repr

/-- Modelled from the spec: the class `Stomp::WeightedAngularCoordinate` is declared in
`stomp.h`, which is missing. The spec's AngularPoint is a position of two angular
coordinates with a coordinate system tag and a scalar weight, immutable once constructed.
The fields are the four arguments of the constructor call on lines 89-90. -/
structure WeightedAngularCoordinate where
  theta : ℚ
  phi : ℚ
  weight : ℚ
  sphere : Sphere
deriving DecidableEq

/-- The accessor `tmp_ang.Weight()` of line 92. -/
def WeightedAngularCoordinate.Weight (a : WeightedAngularCoordinate) : ℚ := a.weight

/-- Modelled from the spec: `Stomp::Map` is declared in `stomp.h`, which is missing. The
spec's FootprintMask offers `Contains(point) → (bool, coverage_weight)` and `Area()`.
`FindLocation ang` gives the boolean the call on line 91 returns and the value it stores
in its second argument, the coverage weight resolved for the point. -/
structure Map where
  FindLocation : WeightedAngularCoordinate → Bool × ℚ
  Area : ℚ

/-- The command-line flags of lines 11-27 with their default values. -/
structure Flags where
  map_file : String := ""
  galaxy_file : String := ""
  galaxy_radec : Bool := true
  use_only_pairs : Bool := false
  output_tag : String := "test"
  theta_min : ℚ := 0.001
  theta_max : ℚ := 1.0
  n_bins_per_decade : Int := 5
  n_random : Int := 1
  single_index : Bool := false
  no_weight : Bool := false
  maximum_resolution : Int := -1

/-- The three shapes of the `Stomp::Map` constructor call on lines 54-66. -/
inductive MapArgs where
  | file (name : String)
  | file_b (name : String) (b1 : Bool)
  | file_b_b (name : String) (b1 b2 : Bool)
deriving DecidableEq

/-- One whitespace-separated decimal numeral of an input file: either it converts to the
`double` `x`, or its value lies beyond the range of `double`, above it (`1e999`) or
below it (`-1e999`). -/
inductive Token where
  | numeral (x : ℚ)
  | out_of_range (negative : Bool)
deriving DecidableEq

/-- Whether the numeral converts to a `double`. -/
def Token.isNumeral : Token → Bool
  | .numeral _ => true
  | .out_of_range _ => false

/-- The largest finite `double`, `std::numeric_limits<double>::max()`. -/
def DBL_MAX : ℚ := (2 ^ 53 - 1) * 2 ^ 971

/-- The content of an input text file: its numerals in order, and whether whitespace
follows the last one. -/
structure TextFile where
  tokens : List Token
  trailing_ws : Bool
deriving DecidableEq

/-- The content of an input text file all of whose numerals convert to a `double`: the
values of its numerals in order, and whether whitespace follows the last one. -/
structure FileContent where
  tokens : List ℚ
  trailing_ws : Bool
deriving DecidableEq

/-- A file of numerals that convert, as a text file. -/
def FileContent.text (c : FileContent) : TextFile :=
  { tokens := c.tokens.map Token.numeral, trailing_ws := c.trailing_ws }

instance : Coe FileContent TextFile := ⟨FileContent.text⟩

/-- The state of a `std::ifstream` over a file of numerals. -/
structure IFStream where
  tokens : List Token
  trailing_ws : Bool
  eofbit : Bool
  failbit : Bool
deriving DecidableEq

/-- A stream freshly opened on a file: no state bit is set. -/
def IFStream.open (c : TextFile) : IFStream :=
  { tokens := c.tokens, trailing_ws := c.trailing_ws, eofbit := false, failbit := false }

/-- The member `eof()`. -/
def IFStream.eof (s : IFStream) : Bool := s.eofbit

/-- One `galaxy_file >> x` for a `double x`. When the stream is not good the extraction
fails and `x` keeps its value. Otherwise leading whitespace is skipped: at the end of
the file `eofbit` and `failbit` are set and `x` keeps its value; else the next numeral
is consumed, and `eofbit` is set when it runs up to the end of the file. A numeral that
converts is stored in `x`; for one beyond the range of `double` the largest finite
`double` of its sign is stored and `failbit` is set. -/
def IFStream.extract (s : IFStream) (x : ℚ) : IFStream × ℚ :=
  if s.eofbit || s.failbit then ({ s with failbit := true }, x)
  else
    match s.tokens with
    | [] => ({ s with eofbit := true, failbit := true }, x)
    | Token.numeral t :: ts =>
      ({ s with tokens := ts, eofbit := ts.isEmpty && !s.trailing_ws }, t)
    | Token.out_of_range negative :: ts =>
      ({ s with tokens := ts, eofbit := ts.isEmpty && !s.trailing_ws, failbit := true },
        if negative then -DBL_MAX else DBL_MAX)

/-- What the driver sends to `std::cout` and the calls it makes on the correlation
object `wtheta`, in program order. -/
inductive Event where
  | cout_usage
  | cout_read_map (map_file : String) (area : ℚ)
  | cout_reading_in_file
  | cout_read_galaxies (n_galaxy : Nat) (galaxy_file : String) (kept : Nat)
  | AngularCorrelation (theta_min theta_max : ℚ) (n_bins_per_decade : Int)
  | UseOnlyPairs
  | AutoMaxResolution (n_points : Nat) (mask_area : ℚ)
  | cout_setting_maximum_resolution (r : Nat)
  | SetMaxResolution (r : Nat)
  | cout_MinResolution
  | FindAutoCorrelation (galaxy : List WeightedAngularCoordinate) (n_random : Int)
  | cout_writing (wtheta_file_name : String)
  | Write (wtheta_file_name : String)
deriving DecidableEq

/-- The local variables of `main` that the reading loop of lines 87-94 uses. -/
structure LoopState where
  galaxy_file : IFStream
  ra : ℚ
  dec : ℚ
  prob : ℚ
  mag : ℚ
  weight : ℚ
  galaxy : List WeightedAngularCoordinate
  n_galaxy : Nat

/-- The body of the `while` loop, lines 88-93. -/
def loopBody (stomp_map : Map) (galaxy_sphere : Sphere) (st : LoopState) : LoopState :=
  let (s1, ra) := st.galaxy_file.extract st.ra
  let (s2, dec) := s1.extract st.dec
  let (s3, prob) := s2.extract st.prob
  let (s4, mag) := s3.extract st.mag
  let tmp_ang : WeightedAngularCoordinate :=
    { theta := ra, phi := dec, weight := prob, sphere := galaxy_sphere }
  let found := stomp_map.FindLocation tmp_ang
  let galaxy :=
    if found.1 && decide (tmp_ang.Weight > 0.2) then st.galaxy ++ [tmp_ang] else st.galaxy
  { galaxy_file := s4, ra := ra, dec := dec, prob := prob, mag := mag,
    weight := found.2, galaxy := galaxy, n_galaxy := (st.n_galaxy + 1) % 2 ^ 32 }

/-- The loop `while (!galaxy_file.eof()) ...` run for at most `fuel` tests of its
condition; `none` when the fuel does not suffice. -/
def readLoop (stomp_map : Map) (galaxy_sphere : Sphere) : Nat → LoopState → Option LoopState
  | 0, _ => none
  | fuel + 1, st =>
    if st.galaxy_file.eof then some st
    else readLoop stomp_map galaxy_sphere fuel (loopBody stomp_map galaxy_sphere st)

/-- Four values for `ra`, `dec`, `prob` and `mag`: one row of the galaxy file
(`RA  DEC  WEIGHT  MAGNITUDE`, lines 70-72), or the indeterminate values the four
variables hold before the first extraction, since line 78 declares them without an
initial value. -/
structure Record where
  ra : ℚ
  dec : ℚ
  prob : ℚ
  mag : ℚ
deriving DecidableEq

/-- Lines 76-84: the local variables when the reading loop is entered. -/
def initialState (c : TextFile) (u : Record) : LoopState :=
  { galaxy_file := IFStream.open c, ra := u.ra, dec := u.dec, prob := u.prob,
    mag := u.mag, weight := 1.0, galaxy := [], n_galaxy := 0 }

/-- Lines 76-95: the declarations and the whole reading loop. An iteration that neither
ends the loop nor leaves the stream failed for good consumes a numeral, so a loop that
ends at all ends within one more iteration than there are numerals, and the last test
of the loop condition takes one more unit of fuel (`readLoop_ends_or_never`). The
result is `none` exactly when the loop never ends. -/
def readGalaxies (stomp_map : Map) (galaxy_sphere : Sphere) (c : TextFile)
    (u : Record) : Option LoopState :=
  readLoop stomp_map galaxy_sphere (c.tokens.length + 2) (initialState c u)

/-- What `main` finds outside the program: how a map file loads, what each galaxy file
contains, and the indeterminate initial values of the four reading variables. -/
structure TextWorld where
  loadMap : MapArgs → Map
  files : String → TextFile
  uninit : Record

/-- A world all of whose galaxy files hold only numerals that convert to a `double`. -/
structure World where
  loadMap : MapArgs → Map
  files : String → FileContent
  uninit : Record

/-- A world of files whose numerals convert, as a world of text files. -/
def World.text (w : World) : TextWorld :=
  { loadMap := w.loadMap, files := fun name => (w.files name).text, uninit := w.uninit }

instance : Coe World TextWorld := ⟨World.text⟩

/-- The outcome of a run: the exit status and the events in program order. -/
structure Outcome where
  exit_code : Nat
  trace : List Event
deriving DecidableEq

/-- Lines 54-66: which constructor call loads the map. -/
def mapArgs (FLAGS : Flags) : MapArgs :=
  if FLAGS.single_index then
    if FLAGS.no_weight then .file_b_b FLAGS.map_file false false
    else .file_b FLAGS.map_file false
  else
    if FLAGS.no_weight then .file_b_b FLAGS.map_file true false
    else .file FLAGS.map_file

/-- Lines 82-84: the coordinate system of the galaxy catalog. -/
def galaxySphere (FLAGS : Flags) : Sphere :=
  if FLAGS.galaxy_radec then Sphere.Equatorial else Sphere.Survey

/-- Lines 117-130: the regime policy applied to `wtheta`. -/
def regimePolicy (FLAGS : Flags) (n_galaxy : Nat) (stomp_map : Map) : List Event :=
  if FLAGS.use_only_pairs then [Event.UseOnlyPairs]
  else if FLAGS.maximum_resolution = -1 then
    [Event.AutoMaxResolution (n_galaxy % 2 ^ 32) stomp_map.Area]
  else
    [Event.cout_setting_maximum_resolution (FLAGS.maximum_resolution % 2 ^ 16).toNat,
     Event.SetMaxResolution (FLAGS.maximum_resolution % 2 ^ 16).toNat]

/-- The function `main`, lines 29-153. The result is `none` exactly when the reading
loop never ends. -/
def main (w : TextWorld) (FLAGS : Flags) : Option Outcome :=
  if FLAGS.map_file.isEmpty then some { exit_code := 1, trace := [Event.cout_usage] }
  else if FLAGS.galaxy_file.isEmpty then some { exit_code := 1, trace := [Event.cout_usage] }
  else
    let stomp_map := w.loadMap (mapArgs FLAGS)
    let galaxy_sphere := galaxySphere FLAGS
    match readGalaxies stomp_map galaxy_sphere (w.files FLAGS.galaxy_file) w.uninit with
    | none => none
    | some st =>
      let galaxy := st.galaxy
      let n_galaxy := galaxy.length % 2 ^ 32
      let wtheta_file_name := "Wtheta_" ++ FLAGS.output_tag
      some
        { exit_code := 0
          trace :=
            [Event.cout_read_map FLAGS.map_file stomp_map.Area,
             Event.cout_reading_in_file,
             Event.cout_read_galaxies st.n_galaxy FLAGS.galaxy_file galaxy.length,
             Event.AngularCorrelation FLAGS.theta_min FLAGS.theta_max
               FLAGS.n_bins_per_decade]
            ++ regimePolicy FLAGS n_galaxy stomp_map
            ++ [Event.cout_MinResolution,
                Event.FindAutoCorrelation galaxy FLAGS.n_random,
                Event.cout_writing wtheta_file_name,
                Event.Write wtheta_file_name] }

/-- The point built on lines 89-90 from the current values of `ra`, `dec` and `prob`. -/
def Record.point (r : Record) (galaxy_sphere : Sphere) : WeightedAngularCoordinate :=
  { theta := r.ra, phi := r.dec, weight := r.prob, sphere := galaxy_sphere }

/-- The tokens of a file made of complete rows. -/
def rowTokens : List Record → List ℚ
  | [] => []
  | r :: rs => r.ra :: r.dec :: r.prob :: r.mag :: rowTokens rs

/-- A galaxy file made of complete rows `RA DEC WEIGHT MAGNITUDE`. -/
def catalogFile (rows : List Record) (trailing_ws : Bool) : FileContent :=
  { tokens := rowTokens rows, trailing_ws := trailing_ws }

/-- The values of `ra`, `dec`, `prob`, `mag` in the successive iterations of the reading
loop over a file of complete rows, `u` being the values before the loop: one iteration
per row, and one more with the values left from before when the end of the file is
only met by a further extraction (the file is empty or whitespace follows its last
row). -/
def iterations : List Record → Bool → Record → List Record
  | [], _, u => [u]
  | [r], false, _ => [r]
  | r :: rs, trailing_ws, _ => r :: iterations rs trailing_ws r

/-- The condition of lines 91-92 on the point `tmp_ang`. -/
def kept (stomp_map : Map) (tmp_ang : WeightedAngularCoordinate) : Bool :=
  (stomp_map.FindLocation tmp_ang).1 && decide (tmp_ang.Weight > 0.2)

/-- The events that apply a regime policy to the correlation object. -/
def Event.isPolicy : Event → Bool
  | .UseOnlyPairs => true
  | .AutoMaxResolution _ _ => true
  | .SetMaxResolution _ => true
  | _ => false

/-- The events that write a result file. -/
def Event.isWrite : Event → Bool
  | .Write _ => true
  | _ => false

/-- The events that run the correlation. -/
def Event.isFindAutoCorrelation : Event → Bool
  | .FindAutoCorrelation _ _ => true
  | _ => false

/-- A map that locates every point, with coverage weight 1, and has area 100. -/
def fullMap : Map :=
  { FindLocation := fun _ => (true, 1), Area := 100 }

/-- A world with the map `fullMap`, where every galaxy file has the content `c` and the
reading variables start at zero. -/
def fullWorld (c : FileContent) : World :=
  { loadMap := fun _ => fullMap, files := fun _ => c, uninit := ⟨0, 0, 0, 0⟩ }

/-- Flags naming a map file and a galaxy file, all others at their defaults. -/
def someFlags : Flags :=
  { map_file := "map", galaxy_file := "galaxies" }

/-- The catalog as the specification describes it: the in-order subsequence of the rows
that pass the acceptance test, each turned into a point with the row's two angles, the
row's probability as weight, and the given coordinate system. -/
def acceptedPoints (stomp_map : Map) (galaxy_sphere : Sphere) (rows : List Record) :
    List WeightedAngularCoordinate :=
  (rows.filter (fun r =>
      (stomp_map.FindLocation
        { theta := r.ra, phi := r.dec, weight := r.prob, sphere := galaxy_sphere }).1 &&
      decide (r.prob > 0.2))).map
    (fun r => { theta := r.ra, phi := r.dec, weight := r.prob, sphere := galaxy_sphere })

/-- A world whose galaxy files hold the single row `10 20 0.9 21` and nothing after it. -/
def oneRowWorld : World :=
  fullWorld (catalogFile [⟨10, 20, 0.9, 21⟩] false)

/-- A world whose galaxy files hold the rows `10 20 0.9 21` and `11 21 0.1 22` and
nothing after them. -/
def twoRowWorld : World :=
  fullWorld (catalogFile [⟨10, 20, 0.9, 21⟩, ⟨11, 21, 0.1, 22⟩] false)

/-- A world whose galaxy files hold the single row `10 20 0.1 21` and nothing after it. -/
def lowRowWorld : World :=
  fullWorld (catalogFile [⟨10, 20, 0.1, 21⟩] false)

/-- Flags that differ from the defaults in every flag. -/
def otherFlags : Flags :=
  { map_file := "map", galaxy_file := "galaxies", galaxy_radec := false,
    use_only_pairs := true, output_tag := "x", theta_min := 0.5, theta_max := 2,
    n_bins_per_decade := 7, n_random := 3, single_index := true, no_weight := true,
    maximum_resolution := 128 }

/-- One row of a galaxy file as text: the numerals of the two angles and of the
probability, which may or may not convert, and a magnitude numeral that converts to the
`double` `mag`. -/
structure TextRecord where
  ra : Token
  dec : Token
  prob : Token
  mag : ℚ
deriving DecidableEq

/-- The numerals of a file made of complete rows whose magnitudes convert. -/
def textRowTokens : List TextRecord → List Token
  | [] => []
  | r :: rs => r.ra :: r.dec :: r.prob :: Token.numeral r.mag :: textRowTokens rs

/-- A galaxy file made of complete rows `RA DEC WEIGHT MAGNITUDE` whose magnitudes
convert. -/
def textCatalogFile (rows : List TextRecord) (trailing_ws : Bool) : TextFile :=
  { tokens := textRowTokens rows, trailing_ws := trailing_ws }

/-- What the rest of `main` uses of the reading loop's final state: the catalog and the
counter. -/
def LoopState.result (st : LoopState) : List WeightedAngularCoordinate × Nat :=
  (st.galaxy, st.n_galaxy)

/-- Two states of the reading loop that agree on all the variables the loop reads
except the stream and `mag`. -/
def LoopState.sameButMag (st1 st2 : LoopState) : Prop :=
  st1.ra = st2.ra ∧ st1.dec = st2.dec ∧ st1.prob = st2.prob ∧
    st1.galaxy = st2.galaxy ∧ st1.n_galaxy = st2.n_galaxy

/-- A world with the map `fullMap`, where every galaxy file has the text `c` and the
reading variables start at zero. -/
def fullTextWorld (c : TextFile) : TextWorld :=
  { loadMap := fun _ => fullMap, files := fun _ => c, uninit := ⟨0, 0, 0, 0⟩ }

/-! ## The reading loop -/

theorem extract_numeral (t : ℚ) (ts : List Token) (tr : Bool) (x : ℚ) :
    IFStream.extract ⟨Token.numeral t :: ts, tr, false, false⟩ x =
      (⟨ts, tr, ts.isEmpty && !tr, false⟩, t) := by
  simp [IFStream.extract]

theorem extract_out_of_range (negative : Bool) (ts : List Token) (tr : Bool) (x : ℚ) :
    IFStream.extract ⟨Token.out_of_range negative :: ts, tr, false, false⟩ x =
      (⟨ts, tr, ts.isEmpty && !tr, true⟩, if negative then -DBL_MAX else DBL_MAX) := by
  simp [IFStream.extract]

theorem extract_good_nil (tr : Bool) (x : ℚ) :
    IFStream.extract ⟨[], tr, false, false⟩ x = (⟨[], tr, true, true⟩, x) := by
  simp [IFStream.extract]

theorem extract_eof (ts : List Token) (tr fl : Bool) (x : ℚ) :
    IFStream.extract ⟨ts, tr, true, fl⟩ x = (⟨ts, tr, true, true⟩, x) := by
  simp [IFStream.extract]

theorem extract_failed (ts : List Token) (tr e : Bool) (x : ℚ) :
    IFStream.extract ⟨ts, tr, e, true⟩ x = (⟨ts, tr, e, true⟩, x) := by
  simp [IFStream.extract]

/-- An iteration started on a stream that has failed without meeting the end of the
file leaves the stream as it is: the four extractions fail at once. -/
theorem loopBody_failed (m : Map) (sp : Sphere) (st : LoopState)
    (he : st.galaxy_file.eofbit = false) (hf : st.galaxy_file.failbit = true) :
    (loopBody m sp st).galaxy_file = st.galaxy_file := by
  obtain ⟨⟨ts, tr, e, f⟩, ra, dec, prob, mag, wt, g, n⟩ := st
  simp only at he hf
  subst he hf
  simp [loopBody, extract_failed]

/-- Once the stream has failed without meeting the end of the file, the loop never
ends: no amount of fuel gives a result. -/
theorem readLoop_failed_never_ends (m : Map) (sp : Sphere) :
    ∀ (fuel : Nat) (st : LoopState),
      st.galaxy_file.eofbit = false → st.galaxy_file.failbit = true →
      readLoop m sp fuel st = none := by
  intro fuel
  induction fuel with
  | zero => intro st _ _; rfl
  | succ k ih =>
    intro st he hf
    have hfile := loopBody_failed m sp st he hf
    have hstep : readLoop m sp (k + 1) st = readLoop m sp k (loopBody m sp st) := by
      simp [readLoop, IFStream.eof, he]
    rw [hstep]
    exact ih _ (by rw [hfile]; exact he) (by rw [hfile]; exact hf)

/-- After one iteration started on a good stream, the end of the file has been met, or
the stream has failed without meeting it, or the stream is still good and has fewer
numerals left. -/
theorem loopBody_progress (m : Map) (sp : Sphere) (st : LoopState)
    (he : st.galaxy_file.eofbit = false) (hf : st.galaxy_file.failbit = false) :
    (loopBody m sp st).galaxy_file.eofbit = true ∨
      ((loopBody m sp st).galaxy_file.eofbit = false ∧
        (loopBody m sp st).galaxy_file.failbit = true) ∨
      ((loopBody m sp st).galaxy_file.eofbit = false ∧
        (loopBody m sp st).galaxy_file.failbit = false ∧
        (loopBody m sp st).galaxy_file.tokens.length < st.galaxy_file.tokens.length) := by
  obtain ⟨⟨ts, tr, e, f⟩, ra, dec, prob, mag, wt, g, n⟩ := st
  simp only at he hf
  subst he hf
  match ts with
  | [] => left; simp [loopBody, extract_good_nil, extract_eof]
  | [a] =>
    cases a <;> cases tr <;>
      simp [loopBody, extract_numeral, extract_out_of_range, extract_good_nil,
        extract_eof, extract_failed]
  | [a, b] =>
    cases a <;> cases b <;> cases tr <;>
      simp [loopBody, extract_numeral, extract_out_of_range, extract_good_nil,
        extract_eof, extract_failed]
  | [a, b, c] =>
    cases a <;> cases b <;> cases c <;> cases tr <;>
      simp [loopBody, extract_numeral, extract_out_of_range, extract_good_nil,
        extract_eof, extract_failed]
  | a :: b :: c :: d :: rest =>
    cases a <;> cases b <;> cases c <;> cases d <;> cases tr <;> cases rest <;>
      simp [loopBody, extract_numeral, extract_out_of_range, extract_good_nil,
        extract_eof, extract_failed]

/-- With more fuel than there are numerals left plus one, the loop either returns a
state or never ends, whatever the fuel: running out of that fuel means the loop does
not end. -/
theorem readLoop_ends_or_never (m : Map) (sp : Sphere) :
    ∀ (fuel : Nat) (st : LoopState),
      st.galaxy_file.tokens.length + 2 ≤ fuel →
      (∃ st', readLoop m sp fuel st = some st') ∨ ∀ k, readLoop m sp k st = none := by
  intro fuel
  induction fuel with
  | zero => intro st h; omega
  | succ k ih =>
    intro st hk
    by_cases he : st.galaxy_file.eofbit = true
    · exact Or.inl ⟨st, by simp [readLoop, IFStream.eof, he]⟩
    have he' : st.galaxy_file.eofbit = false := by simpa using he
    by_cases hf : st.galaxy_file.failbit = true
    · exact Or.inr fun j => readLoop_failed_never_ends m sp j st he' hf
    have hf' : st.galaxy_file.failbit = false := by simpa using hf
    have hstep : ∀ j, readLoop m sp (j + 1) st = readLoop m sp j (loopBody m sp st) := by
      intro j; simp [readLoop, IFStream.eof, he']
    rcases loopBody_progress m sp st he' hf' with h | ⟨h1, h2⟩ | ⟨_, _, h3⟩
    · left
      cases k with
      | zero => omega
      | succ j =>
        exact ⟨loopBody m sp st, by rw [hstep]; simp [readLoop, IFStream.eof, h]⟩
    · right
      intro j
      cases j with
      | zero => rfl
      | succ i => rw [hstep]; exact readLoop_failed_never_ends m sp i _ h1 h2
    · rcases ih (loopBody m sp st) (by omega) with ⟨st', h⟩ | h
      · exact Or.inl ⟨st', by rw [hstep]; exact h⟩
      · right
        intro j
        cases j with
        | zero => rfl
        | succ i => rw [hstep]; exact h i

/-- The reading phase returns no state exactly when the reading loop never ends. -/
theorem readGalaxies_none_iff (m : Map) (sp : Sphere) (c : TextFile) (u : Record) :
    readGalaxies m sp c u = none ↔ ∀ k, readLoop m sp k (initialState c u) = none := by
  constructor
  · intro h
    rcases readLoop_ends_or_never m sp (c.tokens.length + 2) (initialState c u)
      (by simp [initialState, IFStream.open]) with ⟨st', h'⟩ | h'
    · rw [readGalaxies, h'] at h; cases h
    · exact h'
  · intro h
    exact h _

/-- After one iteration started on a good stream all of whose numerals convert, either
the end of the file has been met, or the stream is still good and has fewer numerals
left; the numerals left all convert. -/
theorem loopBody_progress_numerals (m : Map) (sp : Sphere) (st : LoopState) (ts : List ℚ)
    (tr : Bool) (hfile : st.galaxy_file = ⟨ts.map Token.numeral, tr, false, false⟩) :
    ∃ ts' : List ℚ, (loopBody m sp st).galaxy_file.tokens = ts'.map Token.numeral ∧
      ((loopBody m sp st).galaxy_file.eofbit = true ∨
        ((loopBody m sp st).galaxy_file.eofbit = false ∧
          (loopBody m sp st).galaxy_file.failbit = false ∧ ts'.length < ts.length)) := by
  obtain ⟨file, ra, dec, prob, mag, wt, g, n⟩ := st
  simp only at hfile
  subst hfile
  match ts with
  | [] => exact ⟨[], by simp [loopBody, extract_good_nil, extract_eof]⟩
  | [a] =>
    exact ⟨[], by
      cases tr <;> simp [loopBody, extract_numeral, extract_good_nil, extract_eof]⟩
  | [a, b] =>
    exact ⟨[], by
      cases tr <;> simp [loopBody, extract_numeral, extract_good_nil, extract_eof]⟩
  | [a, b, c] =>
    exact ⟨[], by
      cases tr <;> simp [loopBody, extract_numeral, extract_good_nil, extract_eof]⟩
  | a :: b :: c :: d :: rest =>
    exact ⟨rest, by
      cases tr <;> cases rest <;>
        simp [loopBody, extract_numeral, extract_good_nil, extract_eof]⟩

/-- On a stream all of whose numerals convert, the reading loop ends: with more fuel
than numerals plus one it returns a state. -/
theorem readLoop_terminates (m : Map) (sp : Sphere) :
    ∀ (fuel : Nat) (st : LoopState) (ts : List ℚ),
      st.galaxy_file.tokens = ts.map Token.numeral →
      (st.galaxy_file.eofbit = true ∨ st.galaxy_file.failbit = false) →
      ts.length + 2 ≤ fuel →
      ∃ st', readLoop m sp fuel st = some st' := by
  intro fuel
  induction fuel with
  | zero => intro st ts _ _ h; omega
  | succ k ih =>
    intro st ts hts hst hk
    by_cases he : st.galaxy_file.eofbit = true
    · exact ⟨st, by simp [readLoop, IFStream.eof, he]⟩
    · have he' : st.galaxy_file.eofbit = false := by simpa using he
      have hf : st.galaxy_file.failbit = false := by
        rcases hst with h | h
        · exact absurd h he
        · exact h
      have hstep : readLoop m sp (k + 1) st = readLoop m sp k (loopBody m sp st) := by
        simp [readLoop, IFStream.eof, he']
      rw [hstep]
      have hfile : st.galaxy_file =
          ⟨ts.map Token.numeral, st.galaxy_file.trailing_ws, false, false⟩ := by
        cases hgf : st.galaxy_file with
        | mk toks tr0 e f =>
          rw [hgf] at hts he' hf
          simp only at hts he' hf
          rw [hts, he', hf]
      obtain ⟨ts', hts', h | ⟨_, h2, h3⟩⟩ :=
        loopBody_progress_numerals m sp st ts _ hfile
      · cases k with
        | zero => omega
        | succ j => exact ⟨loopBody m sp st, by simp [readLoop, IFStream.eof, h]⟩
      · exact ih _ ts' hts' (Or.inr h2) (by omega)

/-- The reading phase over a file all of whose numerals convert returns a state. -/
theorem readGalaxies_terminates (m : Map) (sp : Sphere) (c : FileContent) (u : Record) :
    ∃ st, readGalaxies m sp c u = some st := by
  unfold readGalaxies
  exact readLoop_terminates m sp _ _ c.tokens rfl (Or.inr rfl)
    (by simp [FileContent.text])

/-- One iteration over a complete row. -/
theorem loopBody_row (m : Map) (sp : Sphere) (r : Record) (rs : List Record) (tr : Bool)
    (st : LoopState) (hfile : st.galaxy_file = ⟨(rowTokens (r :: rs)).map Token.numeral, tr, false, false⟩) :
    (loopBody m sp st).galaxy_file =
      ⟨(rowTokens rs).map Token.numeral, tr, (rowTokens rs).isEmpty && !tr, false⟩ ∧
    (loopBody m sp st).ra = r.ra ∧ (loopBody m sp st).dec = r.dec ∧
    (loopBody m sp st).prob = r.prob ∧ (loopBody m sp st).mag = r.mag ∧
    (loopBody m sp st).galaxy = st.galaxy ++ [r.point sp].filter (kept m) ∧
    (loopBody m sp st).n_galaxy = (st.n_galaxy + 1) % 2 ^ 32 := by
  obtain ⟨file, ra, dec, prob, mag, wt, g, n⟩ := st
  simp only at hfile
  subst hfile
  refine ⟨?_, ?_, ?_, ?_, ?_, ?_, ?_⟩
  · cases rs <;> cases tr <;>
      simp [loopBody, rowTokens, List.map_cons, extract_numeral]
  · simp [loopBody, rowTokens, List.map_cons, extract_numeral]
  · simp [loopBody, rowTokens, List.map_cons, extract_numeral]
  · simp [loopBody, rowTokens, List.map_cons, extract_numeral]
  · simp [loopBody, rowTokens, List.map_cons, extract_numeral]
  · have hf : ∀ p : WeightedAngularCoordinate,
        [p].filter (kept m) = if kept m p = true then [p] else [] := by
      intro p; cases h : kept m p <;> simp [h]
    rw [hf]
    by_cases hk : kept m (r.point sp) = true
    · have hk' := hk
      simp only [kept, Record.point, Bool.and_eq_true, decide_eq_true_eq] at hk'
      have hk2 := hk
      simp only [Record.point] at hk2
      simp [loopBody, rowTokens, List.map_cons, extract_numeral, hk2, hk', Record.point]
    · have hk' := hk
      simp only [kept, Record.point, Bool.and_eq_true, decide_eq_true_eq] at hk'
      have hk2 := hk
      simp only [Record.point] at hk2
      simp [loopBody, rowTokens, List.map_cons, extract_numeral, hk2, hk', Record.point]
  · simp [loopBody]

/-- The iteration that meets the end of the file at its first extraction. -/
theorem loopBody_end (m : Map) (sp : Sphere) (tr : Bool)
    (st : LoopState) (hfile : st.galaxy_file = ⟨[], tr, false, false⟩) :
    (loopBody m sp st).galaxy_file.eofbit = true ∧
    (loopBody m sp st).galaxy =
      st.galaxy ++ [Record.point ⟨st.ra, st.dec, st.prob, st.mag⟩ sp].filter (kept m) ∧
    (loopBody m sp st).n_galaxy = (st.n_galaxy + 1) % 2 ^ 32 := by
  obtain ⟨file, ra, dec, prob, mag, wt, g, n⟩ := st
  simp only at hfile
  subst hfile
  refine ⟨?_, ?_, ?_⟩
  · simp [loopBody, extract_good_nil, extract_eof]
  · have hf : ∀ p : WeightedAngularCoordinate,
        [p].filter (kept m) = if kept m p = true then [p] else [] := by
      intro p; cases h : kept m p <;> simp [h]
    rw [hf]
    by_cases hk : kept m (Record.point ⟨ra, dec, prob, mag⟩ sp) = true
    · have hk' := hk
      simp only [kept, Record.point, Bool.and_eq_true, decide_eq_true_eq] at hk'
      have hk2 := hk
      simp only [Record.point] at hk2
      simp [loopBody, extract_good_nil, extract_eof, hk2, hk', Record.point]
    · have hk' := hk
      simp only [kept, Record.point, Bool.and_eq_true, decide_eq_true_eq] at hk'
      have hk2 := hk
      simp only [Record.point] at hk2
      simp [loopBody, extract_good_nil, extract_eof, hk2, hk', Record.point]
  · simp [loopBody]

theorem iterations_cons_cons (r r' : Record) (rs : List Record) (tr : Bool) (u : Record) :
    iterations (r :: r' :: rs) tr u = r :: iterations (r' :: rs) tr r := by
  cases tr <;> simp [iterations]

theorem iterations_single_true (r : Record) (u : Record) :
    iterations [r] true u = [r, r] := by
  simp [iterations]

/-- The reading loop over a file of complete rows: the kept points are those of the
iterations that pass the test, in order, and the counter counts the iterations
modulo `2^32`. -/
theorem readLoop_rows (m : Map) (sp : Sphere) (tr : Bool) :
    ∀ (rows : List Record) (fuel : Nat) (st : LoopState),
      st.galaxy_file = ⟨(rowTokens rows).map Token.numeral, tr, false, false⟩ →
      rows.length + 2 ≤ fuel →
      ∃ st', readLoop m sp fuel st = some st' ∧
        st'.galaxy = st.galaxy ++
          ((iterations rows tr ⟨st.ra, st.dec, st.prob, st.mag⟩).map
            (fun r => r.point sp)).filter (kept m) ∧
        st'.n_galaxy =
          (st.n_galaxy + (iterations rows tr ⟨st.ra, st.dec, st.prob, st.mag⟩).length)
            % 2 ^ 32 := by
  intro rows
  induction rows with
  | nil =>
    intro fuel st hfile hfuel
    obtain ⟨k, rfl⟩ : ∃ k, fuel = k + 2 := ⟨fuel - 2, by simp at hfuel; omega⟩
    obtain ⟨h1, h2, h3⟩ := loopBody_end m sp tr st hfile
    refine ⟨loopBody m sp st, ?_, ?_, ?_⟩
    · simp [readLoop, IFStream.eof, hfile, h1]
    · simpa [iterations] using h2
    · simpa [iterations] using h3
  | cons r rs ih =>
    intro fuel st hfile hfuel
    obtain ⟨k, rfl⟩ : ∃ k, fuel = k + 2 := ⟨fuel - 2, by simp at hfuel; omega⟩
    obtain ⟨h1, hra, hdec, hprob, hmag, h2, h3⟩ := loopBody_row m sp r rs tr st hfile
    have hstep : readLoop m sp (k + 2) st = readLoop m sp (k + 1) (loopBody m sp st) := by
      simp [readLoop, IFStream.eof, hfile]
    have hcur : (⟨(loopBody m sp st).ra, (loopBody m sp st).dec, (loopBody m sp st).prob,
        (loopBody m sp st).mag⟩ : Record) = r := by
      rw [hra, hdec, hprob, hmag]
    rw [hstep]
    match rs, tr with
    | [], false =>
      refine ⟨loopBody m sp st, ?_, ?_, ?_⟩
      · simp [readLoop, IFStream.eof, h1, rowTokens]
      · simpa [iterations] using h2
      · simpa [iterations] using h3
    | [], true =>
      have h1' : (loopBody m sp st).galaxy_file = ⟨(rowTokens []).map Token.numeral, true, false, false⟩ := by
        simpa [rowTokens] using h1
      obtain ⟨st', e1, e2, e3⟩ := ih (k + 1) (loopBody m sp st) h1' (by
        simp at hfuel ⊢; omega)
      refine ⟨st', e1, ?_, ?_⟩
      · rw [e2, hcur, h2, iterations_single_true]
        simp only [iterations, List.map, List.filter_cons, List.append_assoc]
        split_ifs <;> simp
      · rw [e3, hcur, h3, iterations_single_true]
        simp only [iterations, List.length_cons, List.length_nil]
        omega
    | r' :: rs', tr =>
      have h1' : (loopBody m sp st).galaxy_file =
          ⟨(rowTokens (r' :: rs')).map Token.numeral, tr, false, false⟩ := by
        simpa [rowTokens] using h1
      obtain ⟨st', e1, e2, e3⟩ := ih (k + 1) (loopBody m sp st) h1' (by
        simp at hfuel ⊢; omega)
      refine ⟨st', e1, ?_, ?_⟩
      · rw [e2, hcur, h2, iterations_cons_cons]
        simp only [List.map, List.filter_cons, List.append_assoc]
        split_ifs <;> simp
      · rw [e3, hcur, h3, iterations_cons_cons]
        simp only [List.length_cons]
        omega

theorem length_rowTokens (rows : List Record) :
    (rowTokens rows).length = 4 * rows.length := by
  induction rows with
  | nil => rfl
  | cons r rs ih => simp only [rowTokens, List.length_cons, ih]; omega

/-- The whole reading phase over a file of complete rows. -/
theorem readGalaxies_rows (m : Map) (sp : Sphere) (rows : List Record) (tr : Bool)
    (u : Record) :
    ∃ st, readGalaxies m sp (catalogFile rows tr) u = some st ∧
      st.galaxy = ((iterations rows tr u).map (fun r => r.point sp)).filter (kept m) ∧
      st.n_galaxy = (iterations rows tr u).length % 2 ^ 32 := by
  obtain ⟨st, h1, h2, h3⟩ := readLoop_rows m sp tr rows
    ((catalogFile rows tr).text.tokens.length + 2)
    (initialState (catalogFile rows tr).text u)
    rfl (by simp only [catalogFile, FileContent.text, List.length_map, length_rowTokens]
            omega)
  refine ⟨st, h1, ?_, ?_⟩
  · simpa [initialState] using h2
  · simpa [initialState] using h3

/-- A run that gets past the two usage checks: the reading loop ends, and the events
are those of lines 67-150 in order, with exit status 0. -/
theorem main_run (w : World) (f : Flags)
    (hm : f.map_file.isEmpty = false) (hg : f.galaxy_file.isEmpty = false) :
    ∃ st, readGalaxies (w.loadMap (mapArgs f)) (galaxySphere f)
        (w.files f.galaxy_file) w.uninit = some st ∧
      main w f = some
        { exit_code := 0
          trace :=
            [Event.cout_read_map f.map_file (w.loadMap (mapArgs f)).Area,
             Event.cout_reading_in_file,
             Event.cout_read_galaxies st.n_galaxy f.galaxy_file st.galaxy.length,
             Event.AngularCorrelation f.theta_min f.theta_max f.n_bins_per_decade]
            ++ regimePolicy f (st.galaxy.length % 2 ^ 32) (w.loadMap (mapArgs f))
            ++ [Event.cout_MinResolution,
                Event.FindAutoCorrelation st.galaxy f.n_random,
                Event.cout_writing ("Wtheta_" ++ f.output_tag),
                Event.Write ("Wtheta_" ++ f.output_tag)] } := by
  obtain ⟨st, hst⟩ := readGalaxies_terminates (w.loadMap (mapArgs f)) (galaxySphere f)
    (w.files f.galaxy_file) w.uninit
  refine ⟨st, hst, ?_⟩
  have hst' : readGalaxies ((w : TextWorld).loadMap (mapArgs f)) (galaxySphere f)
      ((w : TextWorld).files f.galaxy_file) (w : TextWorld).uninit = some st := hst
  simp only [main, hm, hg, hst']
  rfl

/-- Every run ends: `main` always returns an outcome. -/
theorem main_total (w : World) (f : Flags) : ∃ o, main w f = some o := by
  by_cases hm : f.map_file.isEmpty = true
  · exact ⟨⟨1, [Event.cout_usage]⟩, by simp [main, hm]⟩
  by_cases hg : f.galaxy_file.isEmpty = true
  · exact ⟨⟨1, [Event.cout_usage]⟩, by simp [main, hm, hg]⟩
  obtain ⟨st, _, h⟩ := main_run w f (by simpa using hm) (by simpa using hg)
  exact ⟨_, h⟩

/-- The chosen regime policy call, as a single event. -/
theorem regimePolicy_filter (f : Flags) (n : Nat) (m : Map) :
    (regimePolicy f n m).filter Event.isPolicy =
      [if f.use_only_pairs = true then Event.UseOnlyPairs
       else if f.maximum_resolution = -1 then Event.AutoMaxResolution (n % 2 ^ 32) m.Area
       else Event.SetMaxResolution (f.maximum_resolution % 2 ^ 16).toNat] := by
  unfold regimePolicy
  split_ifs <;> simp [Event.isPolicy]

theorem regimePolicy_no_write (f : Flags) (n : Nat) (m : Map) :
    (regimePolicy f n m).filter
      (fun e => e.isWrite || e.isFindAutoCorrelation) = [] := by
  unfold regimePolicy
  split_ifs <;> simp [Event.isWrite, Event.isFindAutoCorrelation]

theorem regimePolicy_no_run (f : Flags) (n : Nat) (m : Map) :
    (regimePolicy f n m).filter Event.isFindAutoCorrelation = [] := by
  unfold regimePolicy
  split_ifs <;> simp [Event.isFindAutoCorrelation]

/-- A run over a galaxy file of complete rows, in closed form. -/
theorem main_rows (w : World) (f : Flags)
    (hm : f.map_file.isEmpty = false) (hg : f.galaxy_file.isEmpty = false)
    (rows : List Record) (tr : Bool) (hfile : w.files f.galaxy_file = catalogFile rows tr)
    (its : List Record) (hits : its = iterations rows tr w.uninit)
    (g : List WeightedAngularCoordinate)
    (hgal : g = (its.map (fun r => r.point (galaxySphere f))).filter
      (kept (w.loadMap (mapArgs f)))) :
    main w f = some
      { exit_code := 0
        trace :=
          [Event.cout_read_map f.map_file (w.loadMap (mapArgs f)).Area,
           Event.cout_reading_in_file,
           Event.cout_read_galaxies (its.length % 2 ^ 32) f.galaxy_file g.length,
           Event.AngularCorrelation f.theta_min f.theta_max f.n_bins_per_decade]
          ++ regimePolicy f (g.length % 2 ^ 32) (w.loadMap (mapArgs f))
          ++ [Event.cout_MinResolution,
              Event.FindAutoCorrelation g f.n_random,
              Event.cout_writing ("Wtheta_" ++ f.output_tag),
              Event.Write ("Wtheta_" ++ f.output_tag)] } := by
  obtain ⟨st, hst, hmain⟩ := main_run w f hm hg
  obtain ⟨st', h1, h2, h3⟩ := readGalaxies_rows (w.loadMap (mapArgs f)) (galaxySphere f)
    rows tr w.uninit
  rw [hfile, h1] at hst
  cases hst
  rw [hmain, hgal, hits, h2, h3]

theorem kept_fullMap (p : WeightedAngularCoordinate) :
    kept fullMap p = decide (p.weight > 0.2) := by
  simp [kept, fullMap, WeightedAngularCoordinate.Weight]

/-- Over a non-empty file of equal rows with nothing after the last one, the iterations
are the rows. -/
theorem iterations_replicate (r : Record) :
    ∀ (n : Nat) (u : Record),
      iterations (List.replicate (n + 1) r) false u = List.replicate (n + 1) r := by
  intro n
  induction n with
  | zero => intro u; simp [iterations]
  | succ k ih =>
    intro u
    rw [List.replicate_succ, List.replicate_succ, iterations_cons_cons,
      ← List.replicate_succ, ih]

theorem filter_kept_replicate (m : Map) (p : WeightedAngularCoordinate)
    (hp : kept m p = true) (n : Nat) :
    (List.replicate n p).filter (kept m) = List.replicate n p := by
  induction n with
  | zero => rfl
  | succ k ih => rw [List.replicate_succ, List.filter_cons, if_pos hp, ih]

/-- A run of the default policy over `n + 1` equal rows that all pass the test. -/
theorem main_replicate (n : Nat) :
    main (fullWorld (catalogFile (List.replicate (n + 1) ⟨0, 0, 1, 0⟩) false)) someFlags =
      some
        { exit_code := 0
          trace :=
            [Event.cout_read_map "map" 100,
             Event.cout_reading_in_file,
             Event.cout_read_galaxies ((n + 1) % 2 ^ 32) "galaxies" (n + 1),
             Event.AngularCorrelation 0.001 1.0 5,
             Event.AutoMaxResolution ((n + 1) % 2 ^ 32) 100,
             Event.cout_MinResolution,
             Event.FindAutoCorrelation
               (List.replicate (n + 1) ⟨0, 0, 1, Sphere.Equatorial⟩) 1,
             Event.cout_writing "Wtheta_test",
             Event.Write "Wtheta_test"] } := by
  have hk : kept fullMap ⟨0, 0, 1, Sphere.Equatorial⟩ = true := by
    rw [kept_fullMap]; norm_num
  rw [main_rows (fullWorld (catalogFile (List.replicate (n + 1) ⟨0, 0, 1, 0⟩) false))
    someFlags (by decide) (by decide) (List.replicate (n + 1) ⟨0, 0, 1, 0⟩) false rfl
    (List.replicate (n + 1) ⟨0, 0, 1, 0⟩) (iterations_replicate _ n _).symm
    (List.replicate (n + 1) ⟨0, 0, 1, Sphere.Equatorial⟩) (by
      rw [List.map_replicate]
      exact (filter_kept_replicate fullMap _ hk (n + 1)).symm)]
  have hpol : ∀ k, regimePolicy someFlags k
      ((fullWorld (catalogFile (List.replicate (n + 1) ⟨0, 0, 1, 0⟩) false)).loadMap
        (mapArgs someFlags)) = [Event.AutoMaxResolution (k % 2 ^ 32) 100] := by
    intro k; rfl
  rw [hpol]
  simp only [List.length_replicate, Nat.mod_mod]
  rfl

/-- Over a non-empty file of complete rows with nothing after the last row, the
iterations are exactly the rows. -/
theorem iterations_no_trailing (rows : List Record) :
    ∀ (u : Record), rows ≠ [] → iterations rows false u = rows := by
  induction rows with
  | nil => intro u h; exact absurd rfl h
  | cons a rs ih =>
    intro u _
    cases rs with
    | nil => simp [iterations]
    | cons b rs' => rw [iterations_cons_cons, ih a (by simp)]

/-- On a non-empty galaxy file of complete rows with nothing after the last row, the
catalog is the in-order subsequence of the rows that pass the test, and the number of
records read is the number of rows modulo `2^32`. -/
theorem readGalaxies_no_trailing (m : Map) (sp : Sphere) (rows : List Record) (u : Record)
    (hrows : rows ≠ []) :
    ∃ st, readGalaxies m sp (catalogFile rows false) u = some st ∧
      st.galaxy = (rows.map (fun r => r.point sp)).filter (kept m) ∧
      st.n_galaxy = rows.length % 2 ^ 32 := by
  obtain ⟨st, h1, h2, h3⟩ := readGalaxies_rows m sp rows false u
  rw [iterations_no_trailing rows u hrows] at h2 h3
  exact ⟨st, h1, h2, h3⟩

theorem mem_iterations_of_mem (rows : List Record) (tr : Bool) :
    ∀ (u r : Record), r ∈ rows → r ∈ iterations rows tr u := by
  induction rows with
  | nil => intro u r h; cases h
  | cons a rs ih =>
    intro u r h
    cases rs with
    | nil =>
      have : r = a := by simpa using h
      subst this
      cases tr <;> simp [iterations]
    | cons b rs' =>
      rw [iterations_cons_cons]
      rcases List.mem_cons.mp h with h | h
      · simp [h]
      · exact List.mem_cons_of_mem _ (ih a r h)

/-- Membership in the kept catalog, for a row of a file of complete rows. -/
theorem mem_galaxy_iff (m : Map) (sp : Sphere) (rows : List Record) (tr : Bool)
    (u r : Record) (hr : r ∈ rows) (g : List WeightedAngularCoordinate)
    (hg : g = ((iterations rows tr u).map (fun r => r.point sp)).filter (kept m)) :
    r.point sp ∈ g ↔ (m.FindLocation (r.point sp)).1 = true ∧ r.prob > 0.2 := by
  subst hg
  have hk : kept m (r.point sp) = true ↔
      (m.FindLocation (r.point sp)).1 = true ∧ r.prob > 0.2 := by
    simp [kept, Record.point, WeightedAngularCoordinate.Weight]
  rw [List.mem_filter, hk]
  constructor
  · exact fun h => h.2
  · intro h
    exact ⟨List.mem_map.mpr ⟨r, mem_iterations_of_mem rows tr u r hr, rfl⟩, h⟩

theorem filter_kept_map_point (m : Map) (sp : Sphere) (rows : List Record) :
    (rows.map (fun r => r.point sp)).filter (kept m) = acceptedPoints m sp rows := by
  unfold acceptedPoints
  rw [List.filter_map]
  rfl

theorem acceptedPoints_weight (m : Map) (sp : Sphere) (rows : List Record) :
    ∀ p ∈ acceptedPoints m sp rows, p.Weight > 0.2 := by
  intro p hp
  unfold acceptedPoints at hp
  obtain ⟨r, hr, rfl⟩ := List.mem_map.mp hp
  have := (List.mem_filter.mp hr).2
  simp only [Bool.and_eq_true, decide_eq_true_eq] at this
  exact this.2

theorem acceptedPoints_length (m : Map) (sp : Sphere) (rows : List Record) :
    (acceptedPoints m sp rows).length ≤ rows.length := by
  unfold acceptedPoints
  rw [List.length_map]
  exact List.length_filter_le _ _

/-- The run on the galaxy file that holds the single row `10 20 0.9 21` followed by a
newline. The loop runs twice, the second time on the values left by the first, so the
row's point enters the catalog twice and two records are reported read. -/
theorem trailing_newline_duplicates_last_row :
    main (fullWorld (catalogFile [⟨10, 20, 0.9, 21⟩] true)) someFlags = some
      { exit_code := 0
        trace :=
          [Event.cout_read_map "map" 100,
           Event.cout_reading_in_file,
           Event.cout_read_galaxies 2 "galaxies" 2,
           Event.AngularCorrelation 0.001 1.0 5,
           Event.AutoMaxResolution 2 100,
           Event.cout_MinResolution,
           Event.FindAutoCorrelation
             [⟨10, 20, 0.9, Sphere.Equatorial⟩, ⟨10, 20, 0.9, Sphere.Equatorial⟩] 1,
           Event.cout_writing "Wtheta_test",
           Event.Write "Wtheta_test"] } := by
  rw [main_rows (fullWorld (catalogFile [⟨10, 20, 0.9, 21⟩] true)) someFlags
    (by decide) (by decide) [⟨10, 20, 0.9, 21⟩] true rfl
    [⟨10, 20, 0.9, 21⟩, ⟨10, 20, 0.9, 21⟩] (iterations_single_true _ _).symm
    [⟨10, 20, 0.9, Sphere.Equatorial⟩, ⟨10, 20, 0.9, Sphere.Equatorial⟩] (by
      simp only [fullWorld, galaxySphere, someFlags, Record.point, List.map,
        List.filter_cons, List.filter_nil, kept_fullMap]
      norm_num)]
  rfl

/-! ## The magnitude column -/

/-- Two loops whose streams are not good, with the same `eofbit`, give the same result
with every fuel: both stop at once, or neither ever ends. -/
theorem readLoop_congr_not_good (m : Map) (sp : Sphere) (fuel : Nat) (st1 st2 : LoopState)
    (hs : st1.sameButMag st2)
    (he : st1.galaxy_file.eofbit = st2.galaxy_file.eofbit)
    (hng : st1.galaxy_file.eofbit = true ∨
      (st1.galaxy_file.failbit = true ∧ st2.galaxy_file.failbit = true)) :
    (readLoop m sp fuel st1).map LoopState.result =
      (readLoop m sp fuel st2).map LoopState.result := by
  by_cases h1 : st1.galaxy_file.eofbit = true
  · have h2 : st2.galaxy_file.eofbit = true := by rw [← he]; exact h1
    cases fuel with
    | zero => rfl
    | succ k =>
      simp only [readLoop, IFStream.eof, h1, h2, if_true, Option.map_some',
        LoopState.result, hs.2.2.2.1, hs.2.2.2.2]
  · have h1' : st1.galaxy_file.eofbit = false := by simpa using h1
    have h2' : st2.galaxy_file.eofbit = false := by rw [← he]; exact h1'
    rcases hng with h | ⟨hf1, hf2⟩
    · exact absurd h h1
    · rw [readLoop_failed_never_ends m sp fuel st1 h1' hf1,
        readLoop_failed_never_ends m sp fuel st2 h2' hf2]

/-- One iteration on two good streams that stand at the same empty rest of the file. -/
theorem loopBody_congr_end (m : Map) (sp : Sphere) (tr : Bool) (st1 st2 : LoopState)
    (hs : st1.sameButMag st2)
    (h1 : st1.galaxy_file = ⟨[], tr, false, false⟩)
    (h2 : st2.galaxy_file = ⟨[], tr, false, false⟩) :
    (loopBody m sp st1).sameButMag (loopBody m sp st2) ∧
      (loopBody m sp st1).galaxy_file.eofbit = true ∧
      (loopBody m sp st2).galaxy_file.eofbit = true := by
  obtain ⟨f1, ra1, dec1, prob1, mag1, wt1, g1, n1⟩ := st1
  obtain ⟨f2, ra2, dec2, prob2, mag2, wt2, g2, n2⟩ := st2
  obtain ⟨e1, e2, e3, e4, e5⟩ := hs
  simp only at h1 h2 e1 e2 e3 e4 e5
  subst h1 h2 e1 e2 e3 e4 e5
  simp [LoopState.sameButMag, loopBody, extract_good_nil, extract_eof]

/-- One iteration on two good streams that stand at rows with the same numerals for the
angles and the probability and with magnitudes that convert: the two states still
agree, and either both streams are good at the next row, or neither is good and they
have the same `eofbit`. -/
theorem loopBody_congr_row (m : Map) (sp : Sphere) (tr : Bool) (a b c : Token)
    (m1 m2 : ℚ) (rest1 rest2 : List Token) (st1 st2 : LoopState)
    (hs : st1.sameButMag st2)
    (h1 : st1.galaxy_file = ⟨a :: b :: c :: Token.numeral m1 :: rest1, tr, false, false⟩)
    (h2 : st2.galaxy_file = ⟨a :: b :: c :: Token.numeral m2 :: rest2, tr, false, false⟩)
    (hrest : rest1.isEmpty = rest2.isEmpty) :
    (loopBody m sp st1).sameButMag (loopBody m sp st2) ∧
      (((loopBody m sp st1).galaxy_file = ⟨rest1, tr, false, false⟩ ∧
          (loopBody m sp st2).galaxy_file = ⟨rest2, tr, false, false⟩) ∨
        ((loopBody m sp st1).galaxy_file.eofbit = (loopBody m sp st2).galaxy_file.eofbit ∧
          ((loopBody m sp st1).galaxy_file.eofbit = true ∨
            ((loopBody m sp st1).galaxy_file.failbit = true ∧
              (loopBody m sp st2).galaxy_file.failbit = true)))) := by
  obtain ⟨f1, ra1, dec1, prob1, mag1, wt1, g1, n1⟩ := st1
  obtain ⟨f2, ra2, dec2, prob2, mag2, wt2, g2, n2⟩ := st2
  obtain ⟨e1, e2, e3, e4, e5⟩ := hs
  simp only at h1 h2 e1 e2 e3 e4 e5
  subst h1 h2 e1 e2 e3 e4 e5
  cases a <;> cases b <;> cases c <;> cases tr <;> cases rest1 <;> cases rest2 <;>
    simp_all [LoopState.sameButMag, loopBody, extract_numeral, extract_out_of_range,
      extract_failed, extract_eof]

theorem textRowTokens_isEmpty (rows1 rows2 : List TextRecord)
    (h : rows1.length = rows2.length) :
    (textRowTokens rows1).isEmpty = (textRowTokens rows2).isEmpty := by
  cases rows1 <;> cases rows2 <;> simp_all [textRowTokens]

/-- Two loops over files of complete rows that agree on the numerals of the angles and
the probability, and whose magnitudes convert, give the same result with every fuel. -/
theorem readLoop_congr_rows (m : Map) (sp : Sphere) (tr : Bool) :
    ∀ (rows1 rows2 : List TextRecord) (fuel : Nat) (st1 st2 : LoopState),
      rows1.map (fun r => (r.ra, r.dec, r.prob)) =
        rows2.map (fun r => (r.ra, r.dec, r.prob)) →
      st1.sameButMag st2 →
      st1.galaxy_file = ⟨textRowTokens rows1, tr, false, false⟩ →
      st2.galaxy_file = ⟨textRowTokens rows2, tr, false, false⟩ →
      (readLoop m sp fuel st1).map LoopState.result =
        (readLoop m sp fuel st2).map LoopState.result := by
  intro rows1
  induction rows1 with
  | nil =>
    intro rows2 fuel st1 st2 hrows hs h1 h2
    cases rows2 with
    | cons b bs => simp at hrows
    | nil =>
      cases fuel with
      | zero => rfl
      | succ k =>
        have hstep1 : readLoop m sp (k + 1) st1 = readLoop m sp k (loopBody m sp st1) := by
          simp [readLoop, IFStream.eof, h1]
        have hstep2 : readLoop m sp (k + 1) st2 = readLoop m sp k (loopBody m sp st2) := by
          simp [readLoop, IFStream.eof, h2]
        obtain ⟨hs', e1, e2⟩ := loopBody_congr_end m sp tr st1 st2 hs h1 h2
        rw [hstep1, hstep2]
        exact readLoop_congr_not_good m sp k _ _ hs' (by rw [e1, e2]) (Or.inl e1)
  | cons a as ih =>
    intro rows2 fuel st1 st2 hrows hs h1 h2
    cases rows2 with
    | nil => simp at hrows
    | cons b bs =>
      simp only [List.map_cons, List.cons.injEq, Prod.mk.injEq] at hrows
      obtain ⟨⟨hra, hdec, hprob⟩, hrest⟩ := hrows
      cases fuel with
      | zero => rfl
      | succ k =>
        have hstep1 : readLoop m sp (k + 1) st1 = readLoop m sp k (loopBody m sp st1) := by
          simp [readLoop, IFStream.eof, h1]
        have hstep2 : readLoop m sp (k + 1) st2 = readLoop m sp k (loopBody m sp st2) := by
          simp [readLoop, IFStream.eof, h2]
        have hlen : as.length = bs.length := by
          have := congrArg List.length hrest
          simpa using this
        have h2' : st2.galaxy_file =
            ⟨a.ra :: a.dec :: a.prob :: Token.numeral b.mag :: textRowTokens bs,
              tr, false, false⟩ := by
          rw [h2, textRowTokens, hra, hdec, hprob]
        obtain ⟨hs', hnext⟩ := loopBody_congr_row m sp tr a.ra a.dec a.prob a.mag b.mag
          (textRowTokens as) (textRowTokens bs) st1 st2 hs h1 h2'
          (textRowTokens_isEmpty as bs hlen)
        rw [hstep1, hstep2]
        rcases hnext with ⟨g1, g2⟩ | ⟨e, hng⟩
        · exact ih bs k _ _ hrest hs' g1 g2
        · exact readLoop_congr_not_good m sp k _ _ hs' e hng

theorem length_textRowTokens (rows : List TextRecord) :
    (textRowTokens rows).length = 4 * rows.length := by
  induction rows with
  | nil => rfl
  | cons r rs ih => simp only [textRowTokens, List.length_cons, ih]; omega

/-- The rest of `main` uses the final state of the reading loop only through its
catalog and its counter. -/
theorem main_congr (w1 w2 : TextWorld) (f : Flags) (hmap : w1.loadMap = w2.loadMap)
    (hres : (readGalaxies (w1.loadMap (mapArgs f)) (galaxySphere f)
        (w1.files f.galaxy_file) w1.uninit).map LoopState.result =
      (readGalaxies (w1.loadMap (mapArgs f)) (galaxySphere f)
        (w2.files f.galaxy_file) w2.uninit).map LoopState.result) :
    main w1 f = main w2 f := by
  unfold main
  rw [← hmap]
  by_cases hm : f.map_file.isEmpty = true
  · simp [hm]
  by_cases hg : f.galaxy_file.isEmpty = true
  · simp [hg]
  simp only [hm, hg, if_false]
  cases h1 : readGalaxies (w1.loadMap (mapArgs f)) (galaxySphere f)
      (w1.files f.galaxy_file) w1.uninit with
  | none =>
    cases h2 : readGalaxies (w1.loadMap (mapArgs f)) (galaxySphere f)
        (w2.files f.galaxy_file) w2.uninit with
    | none => rfl
    | some st2 => rw [h1, h2] at hres; simp at hres
  | some st1 =>
    cases h2 : readGalaxies (w1.loadMap (mapArgs f)) (galaxySphere f)
        (w2.files f.galaxy_file) w2.uninit with
    | none => rw [h1, h2] at hres; simp at hres
    | some st2 =>
      rw [h1, h2] at hres
      simp only [Option.map_some', Option.some.injEq, LoopState.result,
        Prod.mk.injEq] at hres
      simp only [hres.1, hres.2]

/-- The run returns no outcome exactly when it gets past the usage checks and the
reading loop never ends. -/
theorem main_none_iff (w : TextWorld) (f : Flags) :
    main w f = none ↔
      f.map_file.isEmpty = false ∧ f.galaxy_file.isEmpty = false ∧
      ∀ k, readLoop (w.loadMap (mapArgs f)) (galaxySphere f) k
        (initialState (w.files f.galaxy_file) w.uninit) = none := by
  rw [← readGalaxies_none_iff]
  unfold main
  by_cases hm : f.map_file.isEmpty = true
  · simp [hm]
  by_cases hg : f.galaxy_file.isEmpty = true
  · simp [hg]
  simp only [hm, hg, if_false]
  cases h : readGalaxies (w.loadMap (mapArgs f)) (galaxySphere f)
      (w.files f.galaxy_file) w.uninit with
  | none => simp [hm, hg]
  | some st => simp

theorem textRowTokens_numerals (rows : List TextRecord)
    (h : ∀ r ∈ rows, r.ra.isNumeral = true ∧ r.dec.isNumeral = true ∧
      r.prob.isNumeral = true) :
    ∃ ts : List ℚ, textRowTokens rows = ts.map Token.numeral := by
  induction rows with
  | nil => exact ⟨[], rfl⟩
  | cons r rs ih =>
    obtain ⟨ts, hts⟩ := ih (fun x hx => h x (List.mem_cons_of_mem _ hx))
    obtain ⟨h1, h2, h3⟩ := h r (List.mem_cons_self _ _)
    obtain ⟨a, b, c, mg⟩ := r
    cases a <;> cases b <;> cases c <;> simp [Token.isNumeral] at h1 h2 h3
    rename_i x y z
    exact ⟨x :: y :: z :: mg :: ts, by simp [textRowTokens, hts]⟩

/-- Two runs over galaxy files of complete rows that agree on the numerals of the
angles and the probability, and whose magnitudes convert, are the same run. -/
theorem main_congr_rows (w1 w2 : TextWorld) (f : Flags)
    (rows1 rows2 : List TextRecord) (tr : Bool)
    (hmap : w1.loadMap = w2.loadMap)
    (h1 : w1.files f.galaxy_file = textCatalogFile rows1 tr)
    (h2 : w2.files f.galaxy_file = textCatalogFile rows2 tr)
    (hrows : rows1.map (fun r => (r.ra, r.dec, r.prob)) =
      rows2.map (fun r => (r.ra, r.dec, r.prob)))
    (hu : (w1.uninit.ra, w1.uninit.dec, w1.uninit.prob) =
      (w2.uninit.ra, w2.uninit.dec, w2.uninit.prob)) :
    main w1 f = main w2 f := by
  apply main_congr w1 w2 f hmap
  have hlen : rows1.length = rows2.length := by
    have := congrArg List.length hrows
    simpa using this
  have hfuel : (textCatalogFile rows2 tr).tokens.length =
      (textCatalogFile rows1 tr).tokens.length := by
    simp only [textCatalogFile, length_textRowTokens, hlen]
  simp only [Prod.mk.injEq] at hu
  rw [h1, h2]
  unfold readGalaxies
  rw [hfuel]
  exact readLoop_congr_rows _ _ tr rows1 rows2 _ _ _ hrows
    ⟨hu.1, hu.2.1, hu.2.2, rfl, rfl⟩ rfl rfl

/-- A run over a galaxy file all of whose numerals convert returns an outcome. -/
theorem main_total_of_numerals (w : TextWorld) (f : Flags) (ts : List ℚ)
    (hts : (w.files f.galaxy_file).tokens = ts.map Token.numeral) :
    ∃ o, main w f = some o := by
  cases h : main w f with
  | some o => exact ⟨o, rfl⟩
  | none =>
    obtain ⟨_, _, hnever⟩ := (main_none_iff w f).mp h
    obtain ⟨st, hst⟩ := readLoop_terminates (w.loadMap (mapArgs f)) (galaxySphere f)
      (ts.length + 2) (initialState (w.files f.galaxy_file) w.uninit) ts hts
      (Or.inr rfl) (le_refl _)
    rw [hnever] at hst
    cases hst

/-! ## The claims -/

/-- C1, as amended: for every row of the galaxy file, the point built from the row is in
the kept catalog if and only if the map locates it and the point's own weight, which is
the row's probability column, is strictly greater than 0.2. The coverage weight that
`FindLocation` resolves plays no part. -/
theorem C1_kept_iff_located_and_prob (m : Map) (sp : Sphere) (rows : List Record)
    (tr : Bool) (u r : Record) (hr : r ∈ rows) :
    ∃ st, readGalaxies m sp (catalogFile rows tr) u = some st ∧
      (r.point sp ∈ st.galaxy ↔
        (m.FindLocation (r.point sp)).1 = true ∧ r.prob > 0.2) := by
  obtain ⟨st, h1, h2, _⟩ := readGalaxies_rows m sp rows tr u
  exact ⟨st, h1, mem_galaxy_iff m sp rows tr u r hr st.galaxy h2⟩

/-- C1, witness: a one-row file whose row has probability 0.9. -/
theorem C1_kept_iff_located_and_prob_witness :
    (⟨10, 20, 0.9, 21⟩ : Record) ∈ [(⟨10, 20, 0.9, 21⟩ : Record)] ∧
    ∃ st, readGalaxies fullMap Sphere.Equatorial
        (catalogFile [⟨10, 20, 0.9, 21⟩] false) ⟨0, 0, 0, 0⟩ = some st ∧
      ((⟨10, 20, 0.9, 21⟩ : Record).point Sphere.Equatorial ∈ st.galaxy ↔
        (fullMap.FindLocation ((⟨10, 20, 0.9, 21⟩ : Record).point Sphere.Equatorial)).1
          = true ∧ (⟨10, 20, 0.9, 21⟩ : Record).prob > 0.2) :=
  ⟨List.mem_singleton.mpr rfl,
   C1_kept_iff_located_and_prob fullMap Sphere.Equatorial [⟨10, 20, 0.9, 21⟩] false
     ⟨0, 0, 0, 0⟩ ⟨10, 20, 0.9, 21⟩ (List.mem_singleton.mpr rfl)⟩

/-- C1, counterexample: the one-row file `10 20 0.1 21` read against a map that locates
every point with coverage weight 1. The point is located and its resolved coverage
weight 1 exceeds 0.2, yet it is not kept (its own weight is 0.1). -/
theorem C1_counterexample :
    ∃ st, readGalaxies fullMap Sphere.Equatorial
        (catalogFile [⟨10, 20, 0.1, 21⟩] false) ⟨0, 0, 0, 0⟩ = some st ∧
      ¬ ((⟨10, 20, 0.1, 21⟩ : Record).point Sphere.Equatorial ∈ st.galaxy ↔
        (fullMap.FindLocation ((⟨10, 20, 0.1, 21⟩ : Record).point Sphere.Equatorial)).1
          = true ∧
        (fullMap.FindLocation ((⟨10, 20, 0.1, 21⟩ : Record).point Sphere.Equatorial)).2
          > 0.2) := by
  obtain ⟨st, h1, h2, _⟩ := readGalaxies_rows fullMap Sphere.Equatorial
    [⟨10, 20, 0.1, 21⟩] false ⟨0, 0, 0, 0⟩
  refine ⟨st, h1, ?_⟩
  have hg : st.galaxy = [] := by
    rw [h2]
    simp [iterations, kept, Record.point, WeightedAngularCoordinate.Weight, fullMap]
    norm_num
  rw [hg]
  simp [fullMap]
  norm_num

/-- C2: in every run that gets past the usage checks, exactly one regime policy is
applied to the correlation object, before `FindAutoCorrelation` runs it: `UseOnlyPairs`
when `use_only_pairs` is set (whatever `maximum_resolution` is), otherwise
`AutoMaxResolution` when `maximum_resolution` is -1, otherwise `SetMaxResolution`. The
defaults of the two flags select `AutoMaxResolution`. -/
theorem C2_exactly_one_policy (w : World) (f : Flags)
    (hm : f.map_file.isEmpty = false) (hg : f.galaxy_file.isEmpty = false) :
    ∃ o st, main w f = some o ∧
      readGalaxies (w.loadMap (mapArgs f)) (galaxySphere f)
        (w.files f.galaxy_file) w.uninit = some st ∧
      o.trace.filter (fun e => e.isPolicy || e.isFindAutoCorrelation) =
        [if f.use_only_pairs = true then Event.UseOnlyPairs
         else if f.maximum_resolution = -1 then
           Event.AutoMaxResolution (st.galaxy.length % 2 ^ 32) (w.loadMap (mapArgs f)).Area
         else Event.SetMaxResolution (f.maximum_resolution % 2 ^ 16).toNat,
         Event.FindAutoCorrelation st.galaxy f.n_random] ∧
      ({} : Flags).use_only_pairs = false ∧ ({} : Flags).maximum_resolution = -1 := by
  obtain ⟨st, hst, hmain⟩ := main_run w f hm hg
  refine ⟨_, st, hmain, hst, ?_, rfl, rfl⟩
  simp only [List.filter_append]
  unfold regimePolicy
  split_ifs <;> simp [Event.isPolicy, Event.isFindAutoCorrelation]

/-- C2, witness: the pairs-only flag set, `maximum_resolution` set to 128, on a one-row
galaxy file. -/
theorem C2_exactly_one_policy_witness :
    otherFlags.map_file.isEmpty = false ∧ otherFlags.galaxy_file.isEmpty = false ∧
    ∃ o st, main oneRowWorld otherFlags = some o ∧
      readGalaxies (oneRowWorld.loadMap (mapArgs otherFlags)) (galaxySphere otherFlags)
        (oneRowWorld.files otherFlags.galaxy_file) oneRowWorld.uninit = some st ∧
      o.trace.filter (fun e => e.isPolicy || e.isFindAutoCorrelation) =
        [if otherFlags.use_only_pairs = true then Event.UseOnlyPairs
         else if otherFlags.maximum_resolution = -1 then
           Event.AutoMaxResolution (st.galaxy.length % 2 ^ 32)
             (oneRowWorld.loadMap (mapArgs otherFlags)).Area
         else Event.SetMaxResolution (otherFlags.maximum_resolution % 2 ^ 16).toNat,
         Event.FindAutoCorrelation st.galaxy otherFlags.n_random] ∧
      ({} : Flags).use_only_pairs = false ∧ ({} : Flags).maximum_resolution = -1 :=
  ⟨by decide, by decide,
   C2_exactly_one_policy oneRowWorld otherFlags (by decide) (by decide)⟩

/-- C7: in every run that gets past the usage checks, `Write` is called exactly once,
after the one call of `FindAutoCorrelation`, and its argument is `Wtheta_` followed by
the output tag; with the default tag that is `Wtheta_test`. -/
theorem C7_write_once_after_run (w : World) (f : Flags)
    (hm : f.map_file.isEmpty = false) (hg : f.galaxy_file.isEmpty = false) :
    ∃ o galaxy, main w f = some o ∧
      o.trace.filter (fun e => e.isWrite || e.isFindAutoCorrelation) =
        [Event.FindAutoCorrelation galaxy f.n_random,
         Event.Write ("Wtheta_" ++ f.output_tag)] ∧
      "Wtheta_" ++ ({} : Flags).output_tag = "Wtheta_test" := by
  obtain ⟨st, _, hmain⟩ := main_run w f hm hg
  refine ⟨_, st.galaxy, hmain, ?_, by decide⟩
  simp only [List.filter_append, regimePolicy_no_write]
  simp [Event.isWrite, Event.isFindAutoCorrelation]

/-- C7, witness: the output tag `x` on a one-row galaxy file. -/
theorem C7_write_once_after_run_witness :
    otherFlags.map_file.isEmpty = false ∧ otherFlags.galaxy_file.isEmpty = false ∧
    ∃ o galaxy, main oneRowWorld otherFlags = some o ∧
      o.trace.filter (fun e => e.isWrite || e.isFindAutoCorrelation) =
        [Event.FindAutoCorrelation galaxy otherFlags.n_random,
         Event.Write ("Wtheta_" ++ otherFlags.output_tag)] ∧
      "Wtheta_" ++ ({} : Flags).output_tag = "Wtheta_test" :=
  ⟨by decide, by decide,
   C7_write_once_after_run oneRowWorld otherFlags (by decide) (by decide)⟩

/-- C3, as amended: a run that gets past the usage checks and keeps no catalog point
raises no error. It still applies a regime policy, calls `FindAutoCorrelation` with the
empty catalog, writes the result file and ends with exit status 0. -/
theorem C3_empty_catalog_still_runs (w : World) (f : Flags)
    (hm : f.map_file.isEmpty = false) (hg : f.galaxy_file.isEmpty = false)
    (hempty : (readGalaxies (w.loadMap (mapArgs f)) (galaxySphere f)
      (w.files f.galaxy_file) w.uninit).map (fun st => st.galaxy) = some []) :
    ∃ o, main w f = some o ∧ o.exit_code = 0 ∧
      o.trace.filter
        (fun e => e.isPolicy || e.isFindAutoCorrelation || e.isWrite) =
        [if f.use_only_pairs = true then Event.UseOnlyPairs
         else if f.maximum_resolution = -1 then
           Event.AutoMaxResolution 0 (w.loadMap (mapArgs f)).Area
         else Event.SetMaxResolution (f.maximum_resolution % 2 ^ 16).toNat,
         Event.FindAutoCorrelation [] f.n_random,
         Event.Write ("Wtheta_" ++ f.output_tag)] := by
  obtain ⟨st, hst, hmain⟩ := main_run w f hm hg
  rw [hst] at hempty
  have hgal : st.galaxy = [] := by simpa using hempty
  rw [hgal] at hmain
  refine ⟨_, hmain, rfl, ?_⟩
  simp only [List.filter_append]
  unfold regimePolicy
  split_ifs <;> simp [Event.isPolicy, Event.isFindAutoCorrelation, Event.isWrite]

/-- The reading phase of the one-row file `10 20 0.1 21` keeps nothing. -/
theorem readGalaxies_low_prob :
    (readGalaxies fullMap Sphere.Equatorial (catalogFile [⟨10, 20, 0.1, 21⟩] false)
      ⟨0, 0, 0, 0⟩).map (fun st => st.galaxy) = some [] := by
  obtain ⟨st, h1, h2, _⟩ := readGalaxies_rows fullMap Sphere.Equatorial
    [⟨10, 20, 0.1, 21⟩] false ⟨0, 0, 0, 0⟩
  rw [h1, Option.map_some', h2]
  simp [iterations, kept, Record.point, WeightedAngularCoordinate.Weight, fullMap]
  norm_num

/-- C3, witness: the one-row file `10 20 0.1 21`, whose only point is dropped. -/
theorem C3_empty_catalog_still_runs_witness :
    someFlags.map_file.isEmpty = false ∧ someFlags.galaxy_file.isEmpty = false ∧
    (readGalaxies (lowRowWorld.loadMap (mapArgs someFlags)) (galaxySphere someFlags)
      (lowRowWorld.files someFlags.galaxy_file) lowRowWorld.uninit).map
        (fun st => st.galaxy) = some [] ∧
    ∃ o, main lowRowWorld someFlags = some o ∧ o.exit_code = 0 ∧
      o.trace.filter
        (fun e => e.isPolicy || e.isFindAutoCorrelation || e.isWrite) =
        [if someFlags.use_only_pairs = true then Event.UseOnlyPairs
         else if someFlags.maximum_resolution = -1 then
           Event.AutoMaxResolution 0 (lowRowWorld.loadMap (mapArgs someFlags)).Area
         else Event.SetMaxResolution (someFlags.maximum_resolution % 2 ^ 16).toNat,
         Event.FindAutoCorrelation [] someFlags.n_random,
         Event.Write ("Wtheta_" ++ someFlags.output_tag)] :=
  ⟨by decide, by decide, readGalaxies_low_prob,
   C3_empty_catalog_still_runs lowRowWorld someFlags (by decide) (by decide)
     readGalaxies_low_prob⟩

/-- C3, counterexample: on the one-row file `10 20 0.1 21` no point survives, and the
run is the complete normal one: `AutoMaxResolution`, `FindAutoCorrelation` on the empty
catalog and `Write` are all called, and the exit status is 0. -/
theorem C3_counterexample :
    main (fullWorld (catalogFile [⟨10, 20, 0.1, 21⟩] false)) someFlags = some
      { exit_code := 0
        trace :=
          [Event.cout_read_map "map" 100,
           Event.cout_reading_in_file,
           Event.cout_read_galaxies 1 "galaxies" 0,
           Event.AngularCorrelation 0.001 1.0 5,
           Event.AutoMaxResolution 0 100,
           Event.cout_MinResolution,
           Event.FindAutoCorrelation [] 1,
           Event.cout_writing "Wtheta_test",
           Event.Write "Wtheta_test"] } := by
  rw [main_rows (fullWorld (catalogFile [⟨10, 20, 0.1, 21⟩] false)) someFlags
    (by decide) (by decide) [⟨10, 20, 0.1, 21⟩] false rfl [⟨10, 20, 0.1, 21⟩] rfl [] (by
      simp [kept, Record.point, WeightedAngularCoordinate.Weight, fullMap, fullWorld]
      norm_num)]
  rfl

/-- C4, as amended: the driver does not validate `n_random`. In every run that gets past
the usage checks, whatever the value of the flag, also zero or negative,
`FindAutoCorrelation` is called exactly once, with the flag's value as its last
argument, and the run ends with exit status 0. -/
theorem C4_n_random_passed_unchecked (w : World) (f : Flags)
    (hm : f.map_file.isEmpty = false) (hg : f.galaxy_file.isEmpty = false) :
    ∃ o galaxy, main w f = some o ∧ o.exit_code = 0 ∧
      o.trace.filter Event.isFindAutoCorrelation =
        [Event.FindAutoCorrelation galaxy f.n_random] := by
  obtain ⟨st, _, hmain⟩ := main_run w f hm hg
  refine ⟨_, st.galaxy, hmain, rfl, ?_⟩
  simp only [List.filter_append, regimePolicy_no_run]
  simp [Event.isFindAutoCorrelation]

/-- C4, witness: `n_random` set to -3. -/
theorem C4_n_random_passed_unchecked_witness :
    ({ someFlags with n_random := -3 } : Flags).map_file.isEmpty = false ∧
    ({ someFlags with n_random := -3 } : Flags).galaxy_file.isEmpty = false ∧
    ∃ o galaxy, main oneRowWorld { someFlags with n_random := -3 } = some o ∧
      o.exit_code = 0 ∧
      o.trace.filter Event.isFindAutoCorrelation =
        [Event.FindAutoCorrelation galaxy
          ({ someFlags with n_random := -3 } : Flags).n_random] :=
  ⟨by decide, by decide,
   C4_n_random_passed_unchecked oneRowWorld { someFlags with n_random := -3 }
     (by decide) (by decide)⟩

/-- C4, counterexample: with `n_random` set to 0 the run does not fail; it calls
`FindAutoCorrelation` with the ratio 0, writes the result and exits with status 0. -/
theorem C4_counterexample :
    main (fullWorld (catalogFile [⟨10, 20, 0.9, 21⟩] false))
      { someFlags with n_random := 0 } = some
      { exit_code := 0
        trace :=
          [Event.cout_read_map "map" 100,
           Event.cout_reading_in_file,
           Event.cout_read_galaxies 1 "galaxies" 1,
           Event.AngularCorrelation 0.001 1.0 5,
           Event.AutoMaxResolution 1 100,
           Event.cout_MinResolution,
           Event.FindAutoCorrelation [⟨10, 20, 0.9, Sphere.Equatorial⟩] 0,
           Event.cout_writing "Wtheta_test",
           Event.Write "Wtheta_test"] } := by
  rw [main_rows (fullWorld (catalogFile [⟨10, 20, 0.9, 21⟩] false))
    { someFlags with n_random := 0 }
    (by decide) (by decide) [⟨10, 20, 0.9, 21⟩] false rfl [⟨10, 20, 0.9, 21⟩] rfl
    [⟨10, 20, 0.9, Sphere.Equatorial⟩] (by
      simp only [fullWorld, galaxySphere, someFlags, Record.point, List.map,
        List.filter_cons, List.filter_nil, kept_fullMap]
      norm_num)]
  rfl

/-- C6, as amended: when `use_only_pairs` is false and `maximum_resolution` is not -1,
the resolution passed to `SetMaxResolution` is `maximum_resolution` reduced modulo
`2^16`, which is the value the caller gave whenever that value lies between 0 and
65535. -/
theorem C6_resolution_cast (w : World) (f : Flags)
    (hm : f.map_file.isEmpty = false) (hg : f.galaxy_file.isEmpty = false)
    (hp : f.use_only_pairs = false) (hr : f.maximum_resolution ≠ -1) :
    ∃ o, main w f = some o ∧
      o.trace.filter Event.isPolicy =
        [Event.SetMaxResolution (f.maximum_resolution % 2 ^ 16).toNat] ∧
      (0 ≤ f.maximum_resolution → f.maximum_resolution < 2 ^ 16 →
        ((f.maximum_resolution % 2 ^ 16).toNat : Int) = f.maximum_resolution) := by
  obtain ⟨st, _, hmain⟩ := main_run w f hm hg
  refine ⟨_, hmain, ?_, ?_⟩
  · simp only [List.filter_append, regimePolicy_filter, hp, hr]
    simp [Event.isPolicy]
  · intro h0 h1
    omega

/-- C6, witness: `maximum_resolution` set to 2048. -/
theorem C6_resolution_cast_witness :
    ({ someFlags with maximum_resolution := 2048 } : Flags).map_file.isEmpty = false ∧
    ({ someFlags with maximum_resolution := 2048 } : Flags).galaxy_file.isEmpty = false ∧
    ({ someFlags with maximum_resolution := 2048 } : Flags).use_only_pairs = false ∧
    ({ someFlags with maximum_resolution := 2048 } : Flags).maximum_resolution ≠ -1 ∧
    ∃ o, main oneRowWorld { someFlags with maximum_resolution := 2048 } = some o ∧
      o.trace.filter Event.isPolicy =
        [Event.SetMaxResolution
          (({ someFlags with maximum_resolution := 2048 } : Flags).maximum_resolution
            % 2 ^ 16).toNat] ∧
      (0 ≤ ({ someFlags with maximum_resolution := 2048 } : Flags).maximum_resolution →
        ({ someFlags with maximum_resolution := 2048 } : Flags).maximum_resolution < 2 ^ 16 →
        ((({ someFlags with maximum_resolution := 2048 } : Flags).maximum_resolution
          % 2 ^ 16).toNat : Int) =
          ({ someFlags with maximum_resolution := 2048 } : Flags).maximum_resolution) :=
  ⟨by decide, by decide, rfl, by decide,
   C6_resolution_cast oneRowWorld { someFlags with maximum_resolution := 2048 }
     (by decide) (by decide) rfl (by decide)⟩

/-- C6, counterexample: with `maximum_resolution` set to 65536, a value of the 32-bit
flag other than -1, `SetMaxResolution` receives 0. -/
theorem C6_counterexample :
    main (fullWorld (catalogFile [⟨10, 20, 0.9, 21⟩] false))
      { someFlags with maximum_resolution := 65536 } = some
      { exit_code := 0
        trace :=
          [Event.cout_read_map "map" 100,
           Event.cout_reading_in_file,
           Event.cout_read_galaxies 1 "galaxies" 1,
           Event.AngularCorrelation 0.001 1.0 5,
           Event.cout_setting_maximum_resolution 0,
           Event.SetMaxResolution 0,
           Event.cout_MinResolution,
           Event.FindAutoCorrelation [⟨10, 20, 0.9, Sphere.Equatorial⟩] 1,
           Event.cout_writing "Wtheta_test",
           Event.Write "Wtheta_test"] } := by
  rw [main_rows (fullWorld (catalogFile [⟨10, 20, 0.9, 21⟩] false))
    { someFlags with maximum_resolution := 65536 }
    (by decide) (by decide) [⟨10, 20, 0.9, 21⟩] false rfl [⟨10, 20, 0.9, 21⟩] rfl
    [⟨10, 20, 0.9, Sphere.Equatorial⟩] (by
      simp only [fullWorld, galaxySphere, someFlags, Record.point, List.map,
        List.filter_cons, List.filter_nil, kept_fullMap]
      norm_num)]
  rfl

/-- C5, as amended: the point-acceptance threshold is the constant 0.2 for every flag
configuration; no flag supplies it. In every run that gets past the usage checks, a
located point of the galaxy file is in the catalog given to `FindAutoCorrelation` if
and only if its weight exceeds 0.2. -/
theorem C5_threshold_is_constant (w : World) (f : Flags)
    (hm : f.map_file.isEmpty = false) (hg : f.galaxy_file.isEmpty = false)
    (rows : List Record) (tr : Bool) (hfile : w.files f.galaxy_file = catalogFile rows tr)
    (r : Record) (hr : r ∈ rows)
    (hloc : ((w.loadMap (mapArgs f)).FindLocation (r.point (galaxySphere f))).1 = true) :
    ∃ o galaxy, main w f = some o ∧
      o.trace.filter Event.isFindAutoCorrelation =
        [Event.FindAutoCorrelation galaxy f.n_random] ∧
      (r.point (galaxySphere f) ∈ galaxy ↔ r.prob > 0.2) := by
  have hmain := main_rows w f hm hg rows tr hfile _ rfl _ rfl
  refine ⟨_, ((iterations rows tr w.uninit).map (fun r => r.point (galaxySphere f))).filter
    (kept (w.loadMap (mapArgs f))), hmain, ?_, ?_⟩
  · simp only [List.filter_append, regimePolicy_no_run]
    simp [Event.isFindAutoCorrelation]
  · rw [mem_galaxy_iff (w.loadMap (mapArgs f)) (galaxySphere f) rows tr w.uninit r hr _ rfl]
    exact ⟨fun h => h.2, fun h => ⟨hloc, h⟩⟩

/-- C5, witness: a located row of weight 0.3, with flags that differ from the defaults
in every flag. -/
theorem C5_threshold_is_constant_witness :
    otherFlags.map_file.isEmpty = false ∧ otherFlags.galaxy_file.isEmpty = false ∧
    (fullWorld (catalogFile [⟨1, 2, 0.3, 4⟩] true)).files otherFlags.galaxy_file =
      catalogFile [⟨1, 2, 0.3, 4⟩] true ∧
    (⟨1, 2, 0.3, 4⟩ : Record) ∈ [(⟨1, 2, 0.3, 4⟩ : Record)] ∧
    (((fullWorld (catalogFile [⟨1, 2, 0.3, 4⟩] true)).loadMap
      (mapArgs otherFlags)).FindLocation
        ((⟨1, 2, 0.3, 4⟩ : Record).point (galaxySphere otherFlags))).1 = true ∧
    ∃ o galaxy,
      main (fullWorld (catalogFile [⟨1, 2, 0.3, 4⟩] true)) otherFlags = some o ∧
      o.trace.filter Event.isFindAutoCorrelation =
        [Event.FindAutoCorrelation galaxy otherFlags.n_random] ∧
      ((⟨1, 2, 0.3, 4⟩ : Record).point (galaxySphere otherFlags) ∈ galaxy ↔
        (⟨1, 2, 0.3, 4⟩ : Record).prob > 0.2) :=
  ⟨by decide, by decide, rfl, List.mem_singleton.mpr rfl, rfl,
   C5_threshold_is_constant (fullWorld (catalogFile [⟨1, 2, 0.3, 4⟩] true)) otherFlags
     (by decide) (by decide) [⟨1, 2, 0.3, 4⟩] true rfl ⟨1, 2, 0.3, 4⟩
     (List.mem_singleton.mpr rfl) rfl⟩

/-- C5, counterexample: for the threshold 1/2 there is no flag configuration under
which a located point is kept exactly when its weight exceeds 1/2. Whatever the flags,
the located row of weight 0.3 is kept. -/
theorem C5_counterexample :
    ¬ ∃ f : Flags, f.map_file.isEmpty = false ∧ f.galaxy_file.isEmpty = false ∧
      ∀ (w : World) (rows : List Record) (tr : Bool),
        w.files f.galaxy_file = catalogFile rows tr →
        ∀ r ∈ rows,
          ((w.loadMap (mapArgs f)).FindLocation (r.point (galaxySphere f))).1 = true →
          ∀ o galaxy, main w f = some o →
            Event.FindAutoCorrelation galaxy f.n_random ∈ o.trace →
            (r.point (galaxySphere f) ∈ galaxy ↔ r.prob > 1 / 2) := by
  rintro ⟨f, hm, hg, h⟩
  have hmain := main_rows (fullWorld (catalogFile [⟨1, 2, 0.3, 4⟩] false)) f hm hg
    [⟨1, 2, 0.3, 4⟩] false rfl [⟨1, 2, 0.3, 4⟩] rfl
    [(⟨1, 2, 0.3, 4⟩ : Record).point (galaxySphere f)] (by
      simp only [fullWorld, Record.point, List.map, List.filter_cons, List.filter_nil,
        kept_fullMap]
      norm_num)
  have hiff := h (fullWorld (catalogFile [⟨1, 2, 0.3, 4⟩] false)) [⟨1, 2, 0.3, 4⟩] false
    rfl ⟨1, 2, 0.3, 4⟩ (List.mem_singleton.mpr rfl) rfl _
    [(⟨1, 2, 0.3, 4⟩ : Record).point (galaxySphere f)] hmain (by simp)
  have hlt : (⟨1, 2, 0.3, 4⟩ : Record).prob > 1 / 2 :=
    hiff.mp (List.mem_singleton.mpr rfl)
  norm_num at hlt

/-- C8, as amended: whenever the `AutoMaxResolution` policy is applied, its `n_points`
argument is the number of points of the catalog later passed to `FindAutoCorrelation`
reduced modulo `2^32`, hence exactly that number when fewer than `2^32` points are
kept; it is not the reported number of records read. Its `mask_area` argument is the
map's `Area()`. -/
theorem C8_auto_resolution_arguments (w : World) (f : Flags)
    (hm : f.map_file.isEmpty = false) (hg : f.galaxy_file.isEmpty = false)
    (hp : f.use_only_pairs = false) (hr : f.maximum_resolution = -1) :
    ∃ o st, main w f = some o ∧
      readGalaxies (w.loadMap (mapArgs f)) (galaxySphere f)
        (w.files f.galaxy_file) w.uninit = some st ∧
      o.trace.filter (fun e => e.isPolicy || e.isFindAutoCorrelation) =
        [Event.AutoMaxResolution (st.galaxy.length % 2 ^ 32) (w.loadMap (mapArgs f)).Area,
         Event.FindAutoCorrelation st.galaxy f.n_random] ∧
      Event.cout_read_galaxies st.n_galaxy f.galaxy_file st.galaxy.length ∈ o.trace ∧
      (st.galaxy.length < 2 ^ 32 → st.galaxy.length % 2 ^ 32 = st.galaxy.length) := by
  obtain ⟨st, hst, hmain⟩ := main_run w f hm hg
  refine ⟨_, st, hmain, hst, ?_, by simp, fun h => Nat.mod_eq_of_lt h⟩
  simp only [List.filter_append]
  unfold regimePolicy
  simp [hp, hr, Event.isPolicy, Event.isFindAutoCorrelation]

/-- C8, witness: the default policy on a two-row file of which one row is kept. -/
theorem C8_auto_resolution_arguments_witness :
    someFlags.map_file.isEmpty = false ∧ someFlags.galaxy_file.isEmpty = false ∧
    someFlags.use_only_pairs = false ∧ someFlags.maximum_resolution = -1 ∧
    ∃ o st, main twoRowWorld someFlags = some o ∧
      readGalaxies (twoRowWorld.loadMap (mapArgs someFlags)) (galaxySphere someFlags)
        (twoRowWorld.files someFlags.galaxy_file) twoRowWorld.uninit = some st ∧
      o.trace.filter (fun e => e.isPolicy || e.isFindAutoCorrelation) =
        [Event.AutoMaxResolution (st.galaxy.length % 2 ^ 32)
          (twoRowWorld.loadMap (mapArgs someFlags)).Area,
         Event.FindAutoCorrelation st.galaxy someFlags.n_random] ∧
      Event.cout_read_galaxies st.n_galaxy someFlags.galaxy_file st.galaxy.length
        ∈ o.trace ∧
      (st.galaxy.length < 2 ^ 32 → st.galaxy.length % 2 ^ 32 = st.galaxy.length) :=
  ⟨by decide, by decide, rfl, by decide,
   C8_auto_resolution_arguments twoRowWorld someFlags (by decide) (by decide) rfl
     (by decide)⟩

/-- C8, counterexample: a galaxy file of `2^32` rows `0 0 1 0`, all of them kept. The
catalog passed to `FindAutoCorrelation` has `2^32` points, and `AutoMaxResolution`
receives `n_points = 0`. -/
theorem C8_counterexample :
    main (fullWorld (catalogFile (List.replicate (2 ^ 32) ⟨0, 0, 1, 0⟩) false)) someFlags =
      some
        { exit_code := 0
          trace :=
            [Event.cout_read_map "map" 100,
             Event.cout_reading_in_file,
             Event.cout_read_galaxies 0 "galaxies" (2 ^ 32),
             Event.AngularCorrelation 0.001 1.0 5,
             Event.AutoMaxResolution 0 100,
             Event.cout_MinResolution,
             Event.FindAutoCorrelation
               (List.replicate (2 ^ 32) ⟨0, 0, 1, Sphere.Equatorial⟩) 1,
             Event.cout_writing "Wtheta_test",
             Event.Write "Wtheta_test"] } ∧
    (List.replicate (2 ^ 32) (⟨0, 0, 1, Sphere.Equatorial⟩ : WeightedAngularCoordinate)).length
      = 2 ^ 32 := by
  have h := main_replicate (2 ^ 32 - 1)
  have e : 2 ^ 32 - 1 + 1 = 2 ^ 32 := by norm_num
  rw [e] at h
  simp only [Nat.mod_self] at h
  exact ⟨h, List.length_replicate _ _⟩

/-- C9, as amended: for a non-empty galaxy file of complete rows with nothing after its
last row, the catalog handed to `FindAutoCorrelation` is exactly the in-order
subsequence of the rows that pass the acceptance test, each turned into a point with
the row's two angles, weight equal to the row's probability column, and the coordinate
system `Equatorial` when `galaxy_radec` is true and `Survey` otherwise. Its length never
exceeds the number of rows, the reported number of records read is that number modulo
`2^32`, and every point in it has weight above 0.2. -/
theorem C9_catalog_is_accepted_rows (w : World) (f : Flags)
    (hm : f.map_file.isEmpty = false) (hg : f.galaxy_file.isEmpty = false)
    (rows : List Record) (hne : rows ≠ [])
    (hfile : w.files f.galaxy_file = catalogFile rows false) :
    ∃ o, main w f = some o ∧
      o.trace.filter Event.isFindAutoCorrelation =
        [Event.FindAutoCorrelation
          (acceptedPoints (w.loadMap (mapArgs f))
            (if f.galaxy_radec = true then Sphere.Equatorial else Sphere.Survey) rows)
          f.n_random] ∧
      Event.cout_read_galaxies (rows.length % 2 ^ 32) f.galaxy_file
        (acceptedPoints (w.loadMap (mapArgs f))
          (if f.galaxy_radec = true then Sphere.Equatorial else Sphere.Survey)
          rows).length ∈ o.trace ∧
      (acceptedPoints (w.loadMap (mapArgs f))
        (if f.galaxy_radec = true then Sphere.Equatorial else Sphere.Survey)
        rows).length ≤ rows.length ∧
      ∀ p ∈ acceptedPoints (w.loadMap (mapArgs f))
          (if f.galaxy_radec = true then Sphere.Equatorial else Sphere.Survey) rows,
        p.Weight > 0.2 := by
  have hmain := main_rows w f hm hg rows false hfile rows
    (iterations_no_trailing rows w.uninit hne).symm
    (acceptedPoints (w.loadMap (mapArgs f)) (galaxySphere f) rows)
    (filter_kept_map_point _ _ rows).symm
  have hsp : galaxySphere f =
      (if f.galaxy_radec = true then Sphere.Equatorial else Sphere.Survey) := rfl
  rw [hsp] at hmain
  refine ⟨_, hmain, ?_, by simp, acceptedPoints_length _ _ rows,
    acceptedPoints_weight _ _ rows⟩
  simp only [List.filter_append, regimePolicy_no_run]
  simp [Event.isFindAutoCorrelation]

/-- C9, witness: a two-row file with nothing after the second row, in survey
coordinates. -/
theorem C9_catalog_is_accepted_rows_witness :
    otherFlags.map_file.isEmpty = false ∧ otherFlags.galaxy_file.isEmpty = false ∧
    [(⟨10, 20, 0.9, 21⟩ : Record), ⟨11, 21, 0.1, 22⟩] ≠ [] ∧
    twoRowWorld.files otherFlags.galaxy_file =
      catalogFile [⟨10, 20, 0.9, 21⟩, ⟨11, 21, 0.1, 22⟩] false ∧
    ∃ o, main twoRowWorld otherFlags = some o ∧
      o.trace.filter Event.isFindAutoCorrelation =
        [Event.FindAutoCorrelation
          (acceptedPoints fullMap Sphere.Survey [⟨10, 20, 0.9, 21⟩, ⟨11, 21, 0.1, 22⟩])
          3] ∧
      Event.cout_read_galaxies (2 % 2 ^ 32) "galaxies"
        (acceptedPoints fullMap Sphere.Survey
          [⟨10, 20, 0.9, 21⟩, ⟨11, 21, 0.1, 22⟩]).length ∈ o.trace ∧
      (acceptedPoints fullMap Sphere.Survey
        [⟨10, 20, 0.9, 21⟩, ⟨11, 21, 0.1, 22⟩]).length ≤ 2 ∧
      ∀ p ∈ acceptedPoints fullMap Sphere.Survey [⟨10, 20, 0.9, 21⟩, ⟨11, 21, 0.1, 22⟩],
        p.Weight > 0.2 :=
  ⟨by decide, by decide, by simp, rfl,
   C9_catalog_is_accepted_rows twoRowWorld otherFlags (by decide) (by decide)
     [⟨10, 20, 0.9, 21⟩, ⟨11, 21, 0.1, 22⟩] (by simp) rfl⟩

/-- C9, counterexample: two runs against a map that locates every point. On the file
that holds the single row `10 20 0.9 21` followed by a newline, the catalog handed to
`FindAutoCorrelation` holds the row's point twice, which is not a subsequence of the
one row. On a file of `2^32` rows `0 0 1 0` the catalog has `2^32` points while the
reported number of records read is 0. -/
theorem C9_counterexample :
    (∃ o, main (fullWorld (catalogFile [⟨10, 20, 0.9, 21⟩] true)) someFlags = some o ∧
      Event.FindAutoCorrelation
        [⟨10, 20, 0.9, Sphere.Equatorial⟩, ⟨10, 20, 0.9, Sphere.Equatorial⟩] 1 ∈ o.trace ∧
      ¬ List.Sublist
        [(⟨10, 20, 0.9, Sphere.Equatorial⟩ : WeightedAngularCoordinate),
          ⟨10, 20, 0.9, Sphere.Equatorial⟩]
        ([(⟨10, 20, 0.9, 21⟩ : Record)].map (fun r => r.point Sphere.Equatorial))) ∧
    (∃ o, main (fullWorld (catalogFile (List.replicate (2 ^ 32) ⟨0, 0, 1, 0⟩) false))
        someFlags = some o ∧
      Event.FindAutoCorrelation
        (List.replicate (2 ^ 32) ⟨0, 0, 1, Sphere.Equatorial⟩) 1 ∈ o.trace ∧
      Event.cout_read_galaxies 0 "galaxies" (2 ^ 32) ∈ o.trace ∧
      ¬ (List.replicate (2 ^ 32)
        (⟨0, 0, 1, Sphere.Equatorial⟩ : WeightedAngularCoordinate)).length ≤ 0) := by
  constructor
  · refine ⟨_, trailing_newline_duplicates_last_row, by simp, ?_⟩
    intro h
    have := h.length_le
    simp at this
  · have h := main_replicate (2 ^ 32 - 1)
    have e : 2 ^ 32 - 1 + 1 = 2 ^ 32 := by norm_num
    rw [e] at h
    simp only [Nat.mod_self] at h
    refine ⟨_, h, ?_, ?_, ?_⟩
    · simp only [List.mem_cons, List.mem_singleton, reduceCtorEq, false_or, or_false,
        true_or, or_true]
    · simp only [List.mem_cons, List.mem_singleton, reduceCtorEq, false_or, or_false,
        true_or, or_true]
    · rw [List.length_replicate]
      norm_num

/-- C10, as amended: a magnitude column whose numerals all convert to a `double` has no
influence on the run. Two galaxy files of complete rows that carry the same numerals
for the two angles and the probability, row by row, and differ at most in the
magnitudes, all of which convert, give the same run: the same kept catalog, the same
regime-policy call and the same `FindAutoCorrelation` call, indeed the same exit status
and events, or in both cases a reading loop that never ends. When the numerals of the
angles and the probability convert too, both runs return the same outcome. -/
theorem C10_converting_magnitude_has_no_influence (w1 w2 : TextWorld) (f : Flags)
    (rows1 rows2 : List TextRecord) (tr : Bool)
    (hmap : w1.loadMap = w2.loadMap)
    (h1 : w1.files f.galaxy_file = textCatalogFile rows1 tr)
    (h2 : w2.files f.galaxy_file = textCatalogFile rows2 tr)
    (hrows : rows1.map (fun r => (r.ra, r.dec, r.prob)) =
      rows2.map (fun r => (r.ra, r.dec, r.prob)))
    (hu : (w1.uninit.ra, w1.uninit.dec, w1.uninit.prob) =
      (w2.uninit.ra, w2.uninit.dec, w2.uninit.prob)) :
    main w1 f = main w2 f ∧
      ((∀ r ∈ rows1, r.ra.isNumeral = true ∧ r.dec.isNumeral = true ∧
          r.prob.isNumeral = true) →
        ∃ o, main w1 f = some o ∧ main w2 f = some o) := by
  have heq := main_congr_rows w1 w2 f rows1 rows2 tr hmap h1 h2 hrows hu
  refine ⟨heq, fun hnum => ?_⟩
  obtain ⟨ts, hts⟩ := textRowTokens_numerals rows1 hnum
  obtain ⟨o, ho⟩ := main_total_of_numerals w1 f ts (by rw [h1]; exact hts)
  exact ⟨o, ho, by rw [← heq]; exact ho⟩

/-- C10, witness: two one-row files that differ in the magnitude only, 21 against 27,
each followed by a newline. -/
theorem C10_converting_magnitude_has_no_influence_witness :
    (fullTextWorld (textCatalogFile
        [⟨Token.numeral 10, Token.numeral 20, Token.numeral 0.9, 21⟩] true)).loadMap =
      (fullTextWorld (textCatalogFile
        [⟨Token.numeral 10, Token.numeral 20, Token.numeral 0.9, 27⟩] true)).loadMap ∧
    (fullTextWorld (textCatalogFile
        [⟨Token.numeral 10, Token.numeral 20, Token.numeral 0.9, 21⟩] true)).files
        someFlags.galaxy_file =
      textCatalogFile [⟨Token.numeral 10, Token.numeral 20, Token.numeral 0.9, 21⟩] true ∧
    (fullTextWorld (textCatalogFile
        [⟨Token.numeral 10, Token.numeral 20, Token.numeral 0.9, 27⟩] true)).files
        someFlags.galaxy_file =
      textCatalogFile [⟨Token.numeral 10, Token.numeral 20, Token.numeral 0.9, 27⟩] true ∧
    [(⟨Token.numeral 10, Token.numeral 20, Token.numeral 0.9, 21⟩ : TextRecord)].map
        (fun r => (r.ra, r.dec, r.prob)) =
      [(⟨Token.numeral 10, Token.numeral 20, Token.numeral 0.9, 27⟩ : TextRecord)].map
        (fun r => (r.ra, r.dec, r.prob)) ∧
    ((0 : ℚ), (0 : ℚ), (0 : ℚ)) = ((0 : ℚ), (0 : ℚ), (0 : ℚ)) ∧
    (main (fullTextWorld (textCatalogFile
        [⟨Token.numeral 10, Token.numeral 20, Token.numeral 0.9, 21⟩] true)) someFlags =
      main (fullTextWorld (textCatalogFile
        [⟨Token.numeral 10, Token.numeral 20, Token.numeral 0.9, 27⟩] true)) someFlags ∧
      ((∀ r ∈ [(⟨Token.numeral 10, Token.numeral 20, Token.numeral 0.9, 21⟩ : TextRecord)],
          r.ra.isNumeral = true ∧ r.dec.isNumeral = true ∧ r.prob.isNumeral = true) →
        ∃ o, main (fullTextWorld (textCatalogFile
            [⟨Token.numeral 10, Token.numeral 20, Token.numeral 0.9, 21⟩] true))
            someFlags = some o ∧
          main (fullTextWorld (textCatalogFile
            [⟨Token.numeral 10, Token.numeral 20, Token.numeral 0.9, 27⟩] true))
            someFlags = some o)) :=
  ⟨rfl, rfl, rfl, rfl, rfl,
   C10_converting_magnitude_has_no_influence
     (fullTextWorld (textCatalogFile
       [⟨Token.numeral 10, Token.numeral 20, Token.numeral 0.9, 21⟩] true))
     (fullTextWorld (textCatalogFile
       [⟨Token.numeral 10, Token.numeral 20, Token.numeral 0.9, 27⟩] true))
     someFlags
     [⟨Token.numeral 10, Token.numeral 20, Token.numeral 0.9, 21⟩]
     [⟨Token.numeral 10, Token.numeral 20, Token.numeral 0.9, 27⟩] true
     rfl rfl rfl rfl rfl⟩

/-- C10, counterexample: two galaxy files against a map that locates every point, each
one row followed by a newline, the same but for the magnitude: `10 20 0.1 21` and
`10 20 0.1 1e999`. The first run is a complete one, through `FindAutoCorrelation` and
`Write` to exit status 0. In the second the extraction of the magnitude sets `failbit`
without `eofbit`, the loop of line 87 never ends whatever the fuel, and the run returns
no outcome. -/
theorem C10_counterexample :
    main (fullTextWorld
        ⟨[Token.numeral 10, Token.numeral 20, Token.numeral 0.1, Token.numeral 21], true⟩)
      someFlags = some
        { exit_code := 0
          trace :=
            [Event.cout_read_map "map" 100,
             Event.cout_reading_in_file,
             Event.cout_read_galaxies 2 "galaxies" 0,
             Event.AngularCorrelation 0.001 1.0 5,
             Event.AutoMaxResolution 0 100,
             Event.cout_MinResolution,
             Event.FindAutoCorrelation [] 1,
             Event.cout_writing "Wtheta_test",
             Event.Write "Wtheta_test"] } ∧
    main (fullTextWorld
        ⟨[Token.numeral 10, Token.numeral 20, Token.numeral 0.1,
          Token.out_of_range false], true⟩)
      someFlags = none ∧
    ∀ k, readLoop fullMap Sphere.Equatorial k
      (initialState
        ⟨[Token.numeral 10, Token.numeral 20, Token.numeral 0.1,
          Token.out_of_range false], true⟩ ⟨0, 0, 0, 0⟩) = none := by
  have hnever : ∀ k, readLoop fullMap Sphere.Equatorial k
      (initialState
        ⟨[Token.numeral 10, Token.numeral 20, Token.numeral 0.1,
          Token.out_of_range false], true⟩ ⟨0, 0, 0, 0⟩) = none := by
    intro k
    cases k with
    | zero => rfl
    | succ j =>
      have hstep : readLoop fullMap Sphere.Equatorial (j + 1)
          (initialState
            ⟨[Token.numeral 10, Token.numeral 20, Token.numeral 0.1,
              Token.out_of_range false], true⟩ ⟨0, 0, 0, 0⟩) =
          readLoop fullMap Sphere.Equatorial j
            (loopBody fullMap Sphere.Equatorial
              (initialState
                ⟨[Token.numeral 10, Token.numeral 20, Token.numeral 0.1,
                  Token.out_of_range false], true⟩ ⟨0, 0, 0, 0⟩)) := by
        simp [readLoop, IFStream.eof, initialState, IFStream.open]
      rw [hstep]
      apply readLoop_failed_never_ends <;>
        simp [loopBody, initialState, IFStream.open, extract_numeral,
          extract_out_of_range]
  refine ⟨?_, ?_, hnever⟩
  · show main ((fullWorld (catalogFile [⟨10, 20, 0.1, 21⟩] true) : World) : TextWorld)
      someFlags = _
    rw [main_rows (fullWorld (catalogFile [⟨10, 20, 0.1, 21⟩] true)) someFlags
      (by decide) (by decide) [⟨10, 20, 0.1, 21⟩] true rfl
      [⟨10, 20, 0.1, 21⟩, ⟨10, 20, 0.1, 21⟩] (iterations_single_true _ _).symm [] (by
        simp only [fullWorld, galaxySphere, someFlags, Record.point, List.map,
          List.filter_cons, List.filter_nil, kept_fullMap]
        norm_num)]
    rfl
  · exact (main_none_iff _ _).mpr ⟨by decide, by decide, hnever⟩

end StompGalaxyAutocorrelation
